/-
  Verification of the agntcy/telemetry-hub metrics computation engine.

  Shallow embedding of the span ingestion / normalization pipeline
  (entities/core/data_parser.py, core/data_parser.py), the metric registry
  (registry.py), the metrics processor (processor.py) and the ToolError
  metric (metrics/span/tool_error.py).

  Conventions of the embedding:
  - Python values occurring in attribute maps are modelled by the inductive
    type PyVal (null / bool / rational number / string / list / dict).
    Python floats are modelled by exact rationals.
  - Python dicts are modelled as association lists with unique keys;
    assignment is update-in-place-or-append, matching insertion-order
    semantics of CPython dicts.
  - Python exceptions are modelled with Option / Except: a caught exception
    branch becomes a none / error value.
  - Classes whose defining module is not part of the repository snapshot
    (models/eval.py, model_handler.py, entities/models/*.py) are modelled
    from the specification; their definitions carry a comment starting with
    "Modelled from the spec:".
-/
import Mathlib

set_option maxRecDepth 4000

namespace TelemetryHub

/-- JSON-like Python value. -/
inductive PyVal where
  | null : PyVal
  | bool (b : Bool) : PyVal
  | num (q : ℚ) : PyVal
  | str (s : String) : PyVal
  | list (xs : List PyVal) : PyVal
  | dict (xs : List (String × PyVal)) : PyVal
deriving Inhabited

/-- Python truthiness of a value. -/
def PyVal.truthy : PyVal → Bool
  | .null => false
  | .bool b => b
  | .num q => q ≠ 0
  | .str s => s ≠ ""
  | .list xs => ¬ xs.isEmpty
  | .dict xs => ¬ xs.isEmpty

/-- Truthiness of an optional value (absent values are falsy, as in
`attrs.get(key)` returning None). -/
def pyTruthy : Option PyVal → Bool
  | none => false
  | some v => v.truthy

/-- Python dict lookup (first match; maps built by pyInsert have unique
keys). -/
def pyGet : List (String × PyVal) → String → Option PyVal
  | [], _ => none
  | (k0, v0) :: rest, k => if k0 = k then some v0 else pyGet rest k

/-- Python dict assignment `m[k] = v`: update in place when the key exists,
append otherwise. -/
def pyInsert : List (String × PyVal) → String → PyVal → List (String × PyVal)
  | [], k, v => [(k, v)]
  | (k0, v0) :: rest, k, v =>
    if k0 = k then (k0, v) :: rest else (k0, v0) :: pyInsert rest k v

theorem pyGet_pyInsert_same (m : List (String × PyVal)) (k : String) (v : PyVal) :
    pyGet (pyInsert m k v) k = some v := by
  induction m with
  | nil => simp [pyInsert, pyGet]
  | cons hd tl ih =>
    by_cases h : hd.1 = k
    · simp [pyInsert, pyGet, h]
    · simp [pyInsert, pyGet, h, ih]

theorem pyInsert_pyInsert_same (m : List (String × PyVal)) (k : String) (v : PyVal) :
    pyInsert (pyInsert m k v) k v = pyInsert m k v := by
  induction m with
  | nil => simp [pyInsert]
  | cons hd tl ih =>
    by_cases h : hd.1 = k
    · simp [pyInsert, h]
    · simp [pyInsert, h, ih]

/-- Model of `pandas dropna` on an attribute row: entries whose value is
missing (None / NaN) are removed before `to_dict`. -/
def dropNone (m : List (String × PyVal)) : List (String × PyVal) :=
  m.filter (fun kv => match kv.2 with | .null => false | _ => true)

/-- Decimal digits of a natural number, little-endian; the fuel always
suffices since a number needs at most as many digits as its value. -/
def natDigitsAux : Nat → Nat → List Char
  | _, 0 => []
  | n, fuel + 1 =>
    if n < 10 then [Nat.digitChar n]
    else Nat.digitChar (n % 10) :: natDigitsAux (n / 10) fuel

def natDigits (n : Nat) : List Char := natDigitsAux n (n + 1)

/-- Decimal rendering of a natural number, as produced by Python str(i). -/
def natToStr (n : Nat) : String := ⟨(natDigits n).reverse⟩

/-- Numeric value of a little-endian digit list (inverse of natDigits). -/
def digitsVal : List Char → Nat
  | [] => 0
  | c :: cs => (c.toNat - 48) + 10 * digitsVal cs

theorem digitChar_toNat (d : Nat) (h : d < 10) : (Nat.digitChar d).toNat - 48 = d := by
  interval_cases d <;> rfl

theorem digitsVal_natDigitsAux (fuel : Nat) :
    ∀ n, n < fuel → digitsVal (natDigitsAux n fuel) = n := by
  induction fuel with
  | zero => omega
  | succ fuel ih =>
    intro n hn
    by_cases h : n < 10
    · rw [natDigitsAux]
      simp [h, digitsVal, digitChar_toNat n h]
    · rw [natDigitsAux]
      simp only [h, if_false, digitsVal]
      rw [ih (n / 10) (by omega)]
      rw [digitChar_toNat (n % 10) (Nat.mod_lt n (by omega))]
      omega

theorem digitsVal_natDigits (n : Nat) : digitsVal (natDigits n) = n :=
  digitsVal_natDigitsAux (n + 1) n (by omega)

theorem natDigits_injective : Function.Injective natDigits := by
  intro a b h
  have := digitsVal_natDigits a
  rw [h, digitsVal_natDigits] at this
  omega

theorem natToStr_injective : Function.Injective natToStr := by
  intro a b h
  apply natDigits_injective
  have hd : (natDigits a).reverse = (natDigits b).reverse := congrArg String.data h
  exact List.reverse_injective hd

/- String primitives, re-implemented over the character lists so that the
kernel can evaluate them (the position-based core implementations do not
reduce). Each mirrors the corresponding Python str method. -/

/-- str.startswith. -/
def strStartsWith (s pat : String) : Bool := pat.data.isPrefixOf s.data

/-- str.endswith. -/
def strEndsWith (s pat : String) : Bool := pat.data.isSuffixOf s.data

/-- str.lower (ASCII, as all involved markers are ASCII). -/
def toLowerStr (s : String) : String := ⟨s.data.map Char.toLower⟩

def hasSubList (pat : List Char) : List Char → Bool
  | [] => pat.isPrefixOf []
  | c :: rest => pat.isPrefixOf (c :: rest) || hasSubList pat rest

/-- Substring test: pat occurs somewhere in s (pat is a nonempty constant
at every use site, matching the Python in operator and pandas
str.contains with a plain pattern). -/
def containsSub (s pat : String) : Bool := hasSubList pat.data s.data

/-- str.split on a nonempty separator, fuel-based (the fuel covers the
whole input). -/
def splitOnAux (pat : List Char) : List Char → List Char → Nat → List (List Char)
  | s, acc, 0 => [acc.reverse ++ s]
  | s, acc, fuel + 1 =>
    if pat.isPrefixOf s then
      acc.reverse :: splitOnAux pat (s.drop pat.length) [] fuel
    else
      match s with
      | [] => [acc.reverse]
      | c :: rest => splitOnAux pat rest (c :: acc) fuel

def splitOnStr (s pat : String) : List String :=
  if pat.data.isEmpty then [s]
  else (splitOnAux pat.data s.data [] (s.data.length + 1)).map (fun l => ⟨l⟩)

/-- str.replace, non-overlapping left-to-right, fuel-based. -/
def replaceAux (pat rep : List Char) : List Char → Nat → List Char
  | s, 0 => s
  | s, fuel + 1 =>
    if pat.isPrefixOf s then rep ++ replaceAux pat rep (s.drop pat.length) fuel
    else
      match s with
      | [] => []
      | c :: rest => c :: replaceAux pat rep rest fuel

def replaceStr (s pat rep : String) : String :=
  if pat.data.isEmpty then s else ⟨replaceAux pat.data rep.data s.data (s.data.length + 1)⟩

/-- Digits prefix of a char list: consumed digits (as chars) and the rest. -/
def takeDigits : List Char → List Char × List Char
  | [] => ([], [])
  | c :: cs =>
    if c.isDigit then
      let (ds, rest) := takeDigits cs
      (c :: ds, rest)
    else ([], c :: cs)

/-- Value of a big-endian digit-char list. -/
def digitsValBE (cs : List Char) : Nat := digitsVal cs.reverse

/-- Model of Python float(s) for plain decimal strings
(sign, digits, optional fractional part; exponent notation and the
inf / nan spellings are not modelled). Returns none where Python raises
ValueError. -/
def parseFloat (s : String) : Option ℚ :=
  let cs := s.data.filter (fun c => c ≠ ' ')
  let (sign, cs) : ℚ × List Char :=
    match cs with
    | '-' :: rest => (-1, rest)
    | '+' :: rest => (1, rest)
    | rest => (1, rest)
  let (intDs, rest) := takeDigits cs
  match rest with
  | [] => if intDs.isEmpty then none else some (sign * digitsValBE intDs)
  | '.' :: rest2 =>
    let (fracDs, rest3) := takeDigits rest2
    if rest3.isEmpty ∧ ¬ (intDs.isEmpty ∧ fracDs.isEmpty) then
      some (sign * (digitsValBE intDs + (digitsValBE fracDs : ℚ) / (10 ^ fracDs.length)))
    else none
  | _ => none

/-- Left-pad a digit string with zeros to width w. -/
def padZeros (s : String) (w : Nat) : String :=
  ⟨List.replicate (w - s.length) '0' ++ s.data⟩

/-- Decimal rendering of a rational, standing in for Python str(float).
Exact for every value produced by the modelled pipeline (whose
denominators are powers of ten); whole numbers render with a trailing
".0" as str(float) does. -/
def renderRat (q : ℚ) : String :=
  let sign := if q < 0 then "-" else ""
  let a : ℚ := |q|
  match (List.range 31).find? (fun k => (a * 10 ^ k).den = 1) with
  | some k =>
    let n := (a * 10 ^ k).num.toNat
    if k = 0 then sign ++ natToStr n ++ ".0"
    else sign ++ natToStr (n / 10 ^ k) ++ "." ++ padZeros (natToStr (n % 10 ^ k)) k
  | none => sign ++ natToStr a.num.natAbs ++ "/" ++ natToStr a.den

/- ### JSON parsing (json.loads), fuel-based recursive descent.
Covers objects, arrays, strings with simple escapes, plain decimal
numbers, true / false / null. Inputs outside this fragment fail to
parse, which safe_parse_json turns into None. -/

def skipWs : List Char → List Char
  | c :: cs => if c = ' ' ∨ c = '\n' ∨ c = '\t' ∨ c = '\r' then skipWs cs else c :: cs
  | [] => []

/-- Parse a JSON string body after the opening quote. -/
def parseJsonStr : List Char → Nat → Option (String × List Char)
  | _, 0 => none
  | [], _ + 1 => none
  | c :: cs, fuel + 1 =>
    if c = '"' then some ("", cs)
    else if c = '\\' then
      match cs with
      | e :: cs2 =>
        let ec : Option Char :=
          if e = 'n' then some '\n'
          else if e = 't' then some '\t'
          else if e = 'r' then some '\r'
          else if e = '"' ∨ e = '\\' ∨ e = '/' then some e
          else none
        match ec with
        | some ch =>
          match parseJsonStr cs2 fuel with
          | some (s, rest) => some (⟨ch :: s.data⟩, rest)
          | none => none
        | none => none
      | [] => none
    else
      match parseJsonStr cs fuel with
      | some (s, rest) => some (⟨c :: s.data⟩, rest)
      | none => none

mutual

def parseJsonVal : List Char → Nat → Option (PyVal × List Char)
  | _, 0 => none
  | cs, fuel + 1 =>
    match skipWs cs with
    | [] => none
    | c :: rest =>
      if c = '{' then parseJsonObj rest fuel true
      else if c = '[' then parseJsonArr rest fuel true
      else if c = '"' then
        match parseJsonStr rest (rest.length + 1) with
        | some (s, r) => some (.str s, r)
        | none => none
      else if c = 't' then
        match rest with
        | 'r' :: 'u' :: 'e' :: r => some (.bool true, r)
        | _ => none
      else if c = 'f' then
        match rest with
        | 'a' :: 'l' :: 's' :: 'e' :: r => some (.bool false, r)
        | _ => none
      else if c = 'n' then
        match rest with
        | 'u' :: 'l' :: 'l' :: r => some (.null, r)
        | _ => none
      else
        -- number: take sign and digit / dot span, reuse parseFloat
        let isNumChar : Char → Bool := fun ch => ch.isDigit ∨ ch = '.' ∨ ch = '-' ∨ ch = '+'
        let span := (c :: rest).takeWhile isNumChar
        let r := (c :: rest).dropWhile isNumChar
        if span.isEmpty then none
        else
          match parseFloat ⟨span⟩ with
          | some q => some (.num q, r)
          | none => none

/-- Object items after the opening brace; first marks the leading item. -/
def parseJsonObj : List Char → Nat → Bool → Option (PyVal × List Char)
  | _, 0, _ => none
  | cs, fuel + 1, first =>
    match skipWs cs with
    | '}' :: rest => if first then some (.dict [], rest) else none
    | cs2 =>
      match skipWs cs2 with
      | '"' :: csk =>
        match parseJsonStr csk (csk.length + 1) with
        | some (k, afterK) =>
          match skipWs afterK with
          | ':' :: afterColon =>
            match parseJsonVal afterColon fuel with
            | some (v, afterV) =>
              match skipWs afterV with
              | ',' :: afterComma =>
                match parseJsonObj afterComma fuel false with
                | some (.dict entries, rest) => some (.dict (pyInsert entries k v), rest)
                | _ => none
              | '}' :: rest => some (.dict (pyInsert [] k v), rest)
              | _ => none
            | none => none
          | _ => none
        | none => none
      | _ => none

def parseJsonArr : List Char → Nat → Bool → Option (PyVal × List Char)
  | _, 0, _ => none
  | cs, fuel + 1, first =>
    match skipWs cs with
    | ']' :: rest => if first then some (.list [], rest) else none
    | cs2 =>
      match parseJsonVal cs2 fuel with
      | some (v, afterV) =>
        match skipWs afterV with
        | ',' :: afterComma =>
          match parseJsonArr afterComma fuel false with
          | some (.list items, rest) => some (.list (v :: items), rest)
          | _ => none
        | ']' :: rest => some (.list [v], rest)
        | _ => none
      | none => none

end

/-- json.loads on a whole string. -/
def jsonParse (s : String) : Option PyVal :=
  match parseJsonVal s.data (s.length + 1) with
  | some (v, rest) => if (skipWs rest).isEmpty then some v else none
  | none => none

/-- safe_parse_json (both data parsers): json.loads(value) if value else
None, any exception giving None. A falsy argument yields None; a truthy
non-string raises TypeError inside the try, also giving None. A JSON
null parses to Python None, collapsed to none here. -/
def safe_parse_json : Option PyVal → Option PyVal
  | some (.str s) =>
    if s = "" then none
    else
      match jsonParse s with
      | some .null => none
      | r => r
  | _ => none

/- ### Format Normalizer (entities/core/data_parser.py lines 38-125) -/

/-- Days from 1970-01-01 for a civil date (proleptic Gregorian). -/
def daysFromCivil (y m d : Int) : Int :=
  let y2 := if m ≤ 2 then y - 1 else y
  let era := (if y2 ≥ 0 then y2 else y2 - 399) / 400
  let yoe := y2 - era * 400
  let mp := if m > 2 then m - 3 else m + 9
  let doy := (153 * mp + 2) / 5 + d - 1
  let doe := yoe * 365 + yoe / 4 - yoe / 100 + doy
  era * 146097 + doe - 719468

/-- Number of days in a month of a given year. -/
def daysInMonth (y m : Int) : Int :=
  if m = 2 then
    if (y % 4 = 0 ∧ y % 100 ≠ 0) ∨ y % 400 = 0 then 29 else 28
  else if m = 4 ∨ m = 6 ∨ m = 9 ∨ m = 11 then 30
  else 31

/-- Read exactly n digit chars, returning their value and the rest. -/
def readDigits (cs : List Char) (n : Nat) : Option (Nat × List Char) :=
  let ds := cs.take n
  if ds.length = n ∧ ds.all Char.isDigit then some (digitsValBE ds, cs.drop n) else none

/-- Epoch seconds of an aware ISO-8601 timestamp of the shape
YYYY-MM-DDTHH:MM:SS[.digits]+00:00, the form produced by
fromisoformat(start_time_str.replace(Z, +00:00)).timestamp(); anything
else is a parse failure (ValueError in the source). -/
def parseIsoCore (s : String) : Option ℚ := do
  let cs := s.data
  let (y, cs) ← readDigits cs 4
  let cs ← match cs with | '-' :: r => some r | _ => none
  let (mo, cs) ← readDigits cs 2
  let cs ← match cs with | '-' :: r => some r | _ => none
  let (d, cs) ← readDigits cs 2
  let cs ← match cs with | 'T' :: r => some r | _ => none
  let (h, cs) ← readDigits cs 2
  let cs ← match cs with | ':' :: r => some r | _ => none
  let (mi, cs) ← readDigits cs 2
  let cs ← match cs with | ':' :: r => some r | _ => none
  let (se, cs) ← readDigits cs 2
  let fracAndRest ← (match cs with
    | '.' :: r =>
      let (ds, rest) := takeDigits r
      if ds.isEmpty then none
      else some ((digitsValBE ds : ℚ) / (10 ^ ds.length), rest)
    | r => some ((0 : ℚ), r) : Option (ℚ × List Char))
  let (frac, cs) := fracAndRest
  let _ ← match cs with | ['+', '0', '0', ':', '0', '0'] => some () | _ => none
  if 1 ≤ y ∧ y ≤ 9999 ∧ 1 ≤ mo ∧ mo ≤ 12 ∧ 1 ≤ d ∧ (d : Int) ≤ daysInMonth y mo
      ∧ h ≤ 23 ∧ mi ≤ 59 ∧ se ≤ 59 then
    some ((daysFromCivil y mo d * 86400 : Int) + h * 3600 + mi * 60 + se + frac)
  else none

/-- Conversion applied to a string startTime inside the try block of
convert_jaeger_to_standard: the T-and-Z branch goes through
fromisoformat on s.replace(Z, +00:00), the other branch through
float(s); any exception keeps the raw value. -/
def convertStartTimeVal : PyVal → PyVal
  | .str s =>
    if s.data.contains 'T' ∧ s.data.contains 'Z' then
      match parseIsoCore (replaceStr s "Z" "+00:00") with
      | some f => .str (renderRat f)
      | none => .str s
    else
      match parseFloat s with
      | some f => .str (renderRat f)
      | none => .str s
  | v => v

/-- Python duration_micros * 1000: numeric multiplication for numbers and
booleans, repetition for strings and lists, TypeError (none) otherwise. -/
def pyMul1000 : PyVal → Option PyVal
  | .num q => some (.num (q * 1000))
  | .bool b => some (.num ((if b then 1 else 0) * 1000))
  | .str s => some (.str ⟨(List.replicate 1000 s.data).flatten⟩)
  | .list xs => some (.list (List.replicate 1000 xs).flatten)
  | _ => none

/-- A raw span record: a dict carrying any of the well-known fields of the
two wire shapes. Absent fields are none. tags and SpanAttributes are
restricted to dict values (the source calls .copy() on tags). -/
structure SpanRecord where
  operationName : Option PyVal := none
  tags : Option (List (String × PyVal)) := none
  serviceName : Option PyVal := none
  spanId : Option PyVal := none
  parentId : Option PyVal := none
  traceId : Option PyVal := none
  startTime : Option PyVal := none
  durationMicros : Option PyVal := none
  SpanName : Option PyVal := none
  SpanAttributes : Option (List (String × PyVal)) := none
  ServiceName : Option PyVal := none
  SpanId : Option PyVal := none
  ParentSpanId : Option PyVal := none
  TraceId : Option PyVal := none
  Timestamp : Option PyVal := none
  Duration : Option PyVal := none
  ResourceAttributes : Option (List (String × PyVal)) := none

/-- detect_span_format. -/
def detect_span_format (r : SpanRecord) : String :=
  if r.operationName.isSome ∧ r.tags.isSome then "jaeger"
  else if r.SpanName.isSome ∧ r.SpanAttributes.isSome then "standard"
  else "unknown"

/-- convert_jaeger_to_standard; none models the uncaught TypeError of
durationMicros * 1000 on an unsupported value type. -/
def convert_jaeger_to_standard (r : SpanRecord) : Option SpanRecord :=
  let c := r
  let c := match r.operationName with
    | some v => { c with SpanName := some v }
    | none => c
  let c := match r.tags with
    | some t =>
      let t' :=
        if (pyGet t "session.id").isNone ∧ (pyGet t "execution.id").isNone then
          match r.traceId with
          | some tid => pyInsert t "session.id" tid
          | none => t
        else t
      { c with SpanAttributes := some t' }
    | none => c
  let c := match r.serviceName with
    | some v => { c with ServiceName := some v }
    | none => c
  let c := match r.spanId with
    | some v => { c with SpanId := some v }
    | none => c
  let c := match r.parentId with
    | some v => { c with ParentSpanId := some v }
    | none => c
  let c := match r.traceId with
    | some v => { c with TraceId := some v }
    | none => c
  let c := match r.startTime with
    | some st =>
      let c2 := { c with Timestamp := some st }
      let newAttrs := pyInsert (c2.SpanAttributes.getD []) "ioa_start_time" (convertStartTimeVal st)
      { c2 with SpanAttributes := some newAttrs }
    | none => c
  match r.durationMicros with
  | some dm =>
    match pyMul1000 dm with
    | some d => some { c with Duration := some d }
    | none => none
  | none => some c

/-- The per-record normalization step at the head of parse_raw_spans:
convert Jaeger-shaped records, pass all others through unchanged. -/
def normalize_span (r : SpanRecord) : Option SpanRecord :=
  if detect_span_format r = "jaeger" then convert_jaeger_to_standard r else some r

/- ### Span Entity Builder (entities/core/data_parser.py lines 128-571) -/

/-- Entity types assigned by classification. -/
inductive EntityType where
  | llm | tool | agent | workflow | graph | task
deriving DecidableEq, Repr, Inhabited

def EntityType.toName : EntityType → String
  | .llm => "llm"
  | .tool => "tool"
  | .agent => "agent"
  | .workflow => "workflow"
  | .graph => "graph"
  | .task => "task"

/-- Python str() rendering, used by astype(str); list and dict renderings
are placeholders (no claim inspects them). -/
def pyStr : PyVal → String
  | .str s => s
  | .num q => renderRat q
  | .bool b => if b then "True" else "False"
  | .null => "None"
  | .list _ => "<list>"
  | .dict _ => "<dict>"

/-- Python float(x) over an optional value; none where float() raises. -/
def pyFloat : Option PyVal → Option ℚ
  | some (.num q) => some q
  | some (.bool b) => some (if b then 1 else 0)
  | some (.str s) => parseFloat s
  | _ => none

/-- The lower-cased span name of a record:
df SpanName column, fillna("") then astype(str) then str.lower(). -/
def spanNameLower (r : SpanRecord) : String :=
  toLowerStr (pyStr ((r.SpanName).getD (.str "")))

/-- Suffix classification masks (lines 204-216). The six suffixes are
pairwise exclusive, so the sequence of mask assignments equals a first
match chain. -/
def entitySuffixType (n : String) : Option EntityType :=
  if strEndsWith n ".chat" then some .llm
  else if strEndsWith n ".tool" then some .tool
  else if strEndsWith n ".agent" then some .agent
  else if strEndsWith n ".workflow" then some .workflow
  else if strEndsWith n ".graph" then some .graph
  else if strEndsWith n ".task" then some .task
  else none

/-- Full classification (lines 204-257): suffix masks, then the Autogen
substring overrides, the workflow override applied after the agent one.
The loop over task rows at lines 229-257 performs no assignment and is
behaviorally inert. -/
def classify_span_name (name : String) : Option EntityType :=
  let base := entitySuffixType name
  let base := if containsSub name "autogen process" then some .agent else base
  if containsSub name "autogen create" then some .workflow else base

/-- Attribute row of a record as used per span:
SpanAttributes, fillna with the empty dict, then dropna per row. -/
def attrsOf (r : SpanRecord) : List (String × PyVal) :=
  dropNone (r.SpanAttributes.getD [])

/-- Tool definition table entry. -/
structure ToolDef where
  description : Option PyVal
  parameters : Option PyVal

def lookupTbl : List (String × ToolDef) → String → Option ToolDef
  | [], _ => none
  | (k, d) :: rest, n => if k = n then some d else lookupTbl rest n

/-- Indexed attribute key llm.request.functions.i.field. -/
def fnKey (i : Nat) (field : String) : String :=
  "llm.request.functions." ++ natToStr i ++ "." ++ field

/-- The while loop of extract_tool_definitions over one llm attribute
row: scan contiguous indices from i while the indexed name key exists;
a name is added when truthy and not already present (first occurrence
wins). Non-string names are not modelled as table keys (the wire format
carries strings). Fuel bounds the loop; attrs can hold presence for at
most attrs.length distinct indices, so attrs.length + 1 fuel suffices. -/
def collectRow (attrs : List (String × PyVal)) :
    List (String × ToolDef) → Nat → Nat → List (String × ToolDef)
  | tbl, _, 0 => tbl
  | tbl, i, fuel + 1 =>
    if (pyGet attrs (fnKey i "name")).isSome then
      let name := pyGet attrs (fnKey i "name")
      let desc := pyGet attrs (fnKey i "description")
      let params := safe_parse_json (pyGet attrs (fnKey i "parameters"))
      let tbl' :=
        match name with
        | some (.str s) =>
          if s ≠ "" ∧ (lookupTbl tbl s).isNone then tbl ++ [(s, ⟨desc, params⟩)] else tbl
        | _ => tbl
      collectRow attrs tbl' (i + 1) fuel
    else tbl

/-- extract_tool_definitions (lines 427-455): fold the per-row scan over
the llm attribute rows of the whole batch, in order. -/
def extract_tool_definitions (llmRows : List (List (String × PyVal))) :
    List (String × ToolDef) :=
  llmRows.foldl (fun tbl attrs => collectRow attrs tbl 0 (attrs.length + 1)) []

/-- process_llm_payloads (lines 458-492). -/
def process_llm_payloads (attrs : List (String × PyVal)) :
    Option PyVal × Option PyVal × List (String × PyVal) :=
  let inputP := PyVal.dict (attrs.filter (fun kv => strStartsWith kv.1 "gen_ai.prompt"))
  let outputP := PyVal.dict ((attrs.filter (fun kv => strStartsWith kv.1 "gen_ai.completion")).map
    (fun kv =>
      match kv.2 with
      | .str s =>
        match safe_parse_json (some (.str s)) with
        | some parsed => (kv.1, parsed)
        | none => (kv.1, .str s)
      | v => (kv.1, v)))
  let getN := fun k => (pyGet attrs k).getD .null
  let extra : List (String × PyVal) :=
    [("model_name", getN "gen_ai.request.model"),
     ("model_name_response", getN "gen_ai.response.model"),
     ("model_temperature", getN "gen_ai.request.temperature"),
     ("cache_tokens", getN "gen_ai.usage.cache_read_input_tokens"),
     ("input_tokens", getN "gen_ai.usage.prompt_tokens"),
     ("output_tokens", getN "gen_ai.usage.completion_tokens"),
     ("total_tokens", getN "llm.usage.total_tokens")]
  (some inputP, some outputP, extra)

/-- process_generic_payload (lines 495-508). -/
def process_generic_payload (raw : Option PyVal) : Option PyVal :=
  match raw with
  | none => none
  | some v =>
    let parsed : Option PyVal :=
      match v with
      | .str _ => safe_parse_json (some v)
      | _ => some v
    match parsed with
    | none => some (.dict [("value", v)])
    | some p => some p

/-- calculate_end_time (lines 511-519): requires truthy start and duration,
float-parses both, end = start + duration / 1e9 rendered back to a string;
parse failure (ValueError / TypeError) yields none. -/
def calculate_end_time (startTime durationNs : Option PyVal) : Option String :=
  if pyTruthy startTime ∧ pyTruthy durationNs then
    match pyFloat startTime, pyFloat durationNs with
    | some a, some b => some (renderRat (a + b / 1000000000))
    | _, _ => none
  else none

/-- calculate_duration_ms (lines 522-544): method 1 uses the raw duration
when truthy and parseable (nanoseconds to milliseconds); method 2 falls
back to (end - start) * 1000 when both times are truthy and parseable;
otherwise none. -/
def calculate_duration_ms (startTime : Option PyVal) (endTime : Option String)
    (durationNs : Option PyVal) : Option ℚ :=
  match (if pyTruthy durationNs then pyFloat durationNs else none) with
  | some d => some (d / 1000000)
  | none =>
    if pyTruthy startTime && (match endTime with | some s => s != "" | none => false) then
      match pyFloat startTime, (endTime.bind parseFloat) with
      | some a, some b => some ((b - a) * 1000)
      | _, _ => none
    else none

mutual

/-- String leaves of a payload, lower-cased (extract_strings). -/
def extractStringsV : PyVal → List String
  | .dict xs => extractStringsD xs
  | .list xs => extractStringsL xs
  | .str s => [toLowerStr s]
  | _ => []

def extractStringsL : List PyVal → List String
  | [] => []
  | v :: vs => extractStringsV v ++ extractStringsL vs

def extractStringsD : List (String × PyVal) → List String
  | [] => []
  | kv :: vs => extractStringsV kv.2 ++ extractStringsD vs

end

/-- contains_error_like_pattern (lines 20-35). -/
def contains_error_like_pattern (output : PyVal) : Bool :=
  (extractStringsV output).any (fun v =>
    containsSub v "traceback" ∨ containsSub v "exception" ∨ containsSub v "httperror")

/-- check_error_status (lines 547-559). -/
def check_error_status (attrs : List (String × PyVal)) (output : Option PyVal) : Bool :=
  pyTruthy (pyGet attrs "traceloop.entity.error") ||
    (match output with
     | some (.dict d) => contains_error_like_pattern (.dict d)
     | _ => false)

/-- ensure_dict_payload (lines 562-571). -/
def ensure_dict_payload : Option PyVal → Option PyVal
  | none => none
  | some (.dict d) => some (.dict d)
  | some v => some (.dict [("value", v)])

/-- app_name extraction (lines 128-169). -/
def app_name_of (r : SpanRecord) : String :=
  let fromVal : Option PyVal → Option String := fun v =>
    if pyTruthy v then
      let s := pyStr (v.getD .null)
      if s ≠ "" ∧ s ≠ "unknown" then some s else none
    else none
  match fromVal r.ServiceName with
  | some s => s
  | none =>
    let resAttrs := r.ResourceAttributes.getD []
    match (if ¬ resAttrs.isEmpty then fromVal (pyGet resAttrs "service.name") else none) with
    | some s => s
    | none =>
      let attrs := r.SpanAttributes.getD []
      if ¬ attrs.isEmpty then
        let keys := ["app.name", "service.name", "application.name", "traceloop.workflow.name"]
        match keys.findSome? (fun k =>
            if pyTruthy (pyGet attrs k) then some (pyStr ((pyGet attrs k).getD .null)) else none) with
        | some s => s
        | none =>
          if pyTruthy (pyGet attrs "ioa_workflow.name") then
            pyStr ((pyGet attrs "ioa_workflow.name").getD .null)
          else "unknown-app"
      else "unknown-app"

/-- Word character of the regex class backslash-w. -/
def wordChar (c : Char) : Bool := c.isAlphanum || c = '_'

/-- Model of re.search for the pattern: literal "autogen process " then a
captured greedy word-char run followed by an underscore. The capture is
the word run after an occurrence of the literal, cut at its last
underscore; occurrences are tried left to right. -/
def autogenAgentName (spanName : String) : Option String :=
  ((splitOnStr spanName "autogen process ").drop 1).findSome? (fun after =>
    let run := after.data.takeWhile wordChar
    match (run.reverse.dropWhile (fun c => c ≠ '_')) with
    | '_' :: preRev => if preRev.isEmpty then none else some ⟨preRev.reverse⟩
    | _ => none)

/-- The raw (not lower-cased) span name string used by the Autogen agent
name special case; a non-string SpanName is treated as absent. -/
def rawSpanNameStr (r : SpanRecord) : String :=
  match r.SpanName with
  | some (.str s) => s
  | _ => ""

/-- entity_name_key of PAYLOAD_CONFIG (lines 268-305). -/
def entityNameKey : EntityType → String
  | .llm => "gen_ai.response.model"
  | .tool => "traceloop.entity.name"
  | .agent => "ioa_observe.entity.name"
  | .workflow => "ioa_observe.workflow.name"
  | .graph => "ioa_observe.workflow.name"
  | .task => "traceloop.entity.name"

/-- input_key of PAYLOAD_CONFIG for non-llm types. -/
def inputKeyOf : EntityType → String
  | .agent => "ioa_observe.entity.input"
  | _ => "traceloop.entity.input"

/-- output_key of PAYLOAD_CONFIG for non-llm types. -/
def outputKeyOf : EntityType → String
  | .agent => "ioa_observe.entity.output"
  | _ => "traceloop.entity.output"

/-- Span entity. Modelled from the spec: the class lives in
entities/models/span.py, absent from the snapshot; fields are those of
the constructor call at lines 398-420 and the data model section of the
spec. -/
structure SpanEnt where
  entity_type : EntityType
  span_id : PyVal
  entity_name : PyVal
  app_name : String
  agent_id : Option PyVal
  input_payload : Option PyVal
  output_payload : Option PyVal
  message : Option PyVal
  tool_definition : Option ToolDef
  contains_error : Bool
  timestamp : PyVal
  parent_span_id : Option PyVal
  trace_id : Option PyVal
  session_id : Option PyVal
  start_time : Option PyVal
  end_time : Option String
  duration : Option ℚ
  attrs : Option (List (String × PyVal))
  raw_span_data : SpanRecord

/-- Backward compatibility fields added to raw_span_data (lines 383-396). -/
def backfill_raw (r : SpanRecord) : SpanRecord :=
  let r := if r.SpanAttributes.isSome ∧ r.tags.isNone then { r with tags := r.SpanAttributes } else r
  let r := if r.SpanName.isSome ∧ r.operationName.isNone then { r with operationName := r.SpanName } else r
  let r := if r.ServiceName.isSome ∧ r.serviceName.isNone then { r with serviceName := r.ServiceName } else r
  let r := if r.SpanId.isSome ∧ r.spanId.isNone then { r with spanId := r.SpanId } else r
  let r := if r.ParentSpanId.isSome ∧ r.parentId.isNone then { r with parentId := r.ParentSpanId } else r
  if r.TraceId.isSome ∧ r.traceId.isNone then { r with traceId := r.TraceId } else r

/-- Per-row entity construction (lines 315-422). -/
def build_span_entity (toolDefs : List (String × ToolDef)) (r : SpanRecord)
    (t : EntityType) : SpanEnt :=
  let attrs := attrsOf r
  let entityName0 := (pyGet attrs (entityNameKey t)).getD (.str "unknown")
  let isUnknown : Bool := match entityName0 with | .str s => s = "unknown" | _ => false
  let entityName :=
    if t = .agent && isUnknown then
      let sn := rawSpanNameStr r
      if containsSub sn "autogen process" then
        match autogenAgentName sn with
        | some nm => PyVal.str nm
        | none =>
          let p0 := (splitOnStr (replaceStr sn "autogen process " "") "_").headD ""
          if p0 ≠ "" then PyVal.str p0 else entityName0
      else entityName0
    else entityName0
  let (inputP, outputP, extra) :=
    match t with
    | .llm =>
      let (i, o, e) := process_llm_payloads attrs
      (i, o, some e)
    | _ =>
      let i := process_generic_payload (pyGet attrs (inputKeyOf t))
      let o := process_generic_payload (pyGet attrs (outputKeyOf t))
      let o := match t, o with
        | .workflow, some (.str s) => some (PyVal.dict [("value", .str s)])
        | _, _ => o
      (i, o, none)
  let toolDef :=
    if t = .tool then
      match entityName with
      | .str s => lookupTbl toolDefs s
      | _ => none
    else none
  let st := pyGet attrs "ioa_start_time"
  let dn := r.Duration
  let et := calculate_end_time st dn
  let dur := calculate_duration_ms st et dn
  let ce := check_error_status attrs outputP
  let sidA := pyGet attrs "session.id"
  { entity_type := t
    span_id := r.SpanId.getD (.str "")
    entity_name := entityName
    app_name := app_name_of r
    agent_id := pyGet attrs "agent_id"
    input_payload := ensure_dict_payload inputP
    output_payload := ensure_dict_payload outputP
    message := pyGet attrs "traceloop.entity.message"
    tool_definition := toolDef
    contains_error := ce
    timestamp := r.Timestamp.getD (.str "")
    parent_span_id := match r.ParentSpanId with | some .null => none | x => x
    trace_id := r.TraceId
    session_id := if pyTruthy sidA then sidA else pyGet attrs "execution.id"
    start_time := st
    end_time := et
    duration := dur
    attrs := extra
    raw_span_data := backfill_raw r }

/-- parse_raw_spans of entities/core/data_parser.py: normalize each record
(Jaeger conversion as needed), classify, build the batch-wide tool
definition table from llm rows, and construct one SpanEnt per classified
row; unclassified rows are dropped. none models an uncaught exception
during conversion. -/
def parse_raw_spans (spans : List SpanRecord) : Option (List SpanEnt) :=
  match spans.mapM normalize_span with
  | none => none
  | some converted =>
    let classified := converted.filterMap (fun r =>
      (classify_span_name (spanNameLower r)).map (fun t => (r, t)))
    let toolDefs := extract_tool_definitions (classified.filterMap (fun rt =>
      if rt.2 = .llm then some (attrsOf rt.1) else none))
    some (classified.map (fun rt => build_span_entity toolDefs rt.1 rt.2))

/- ### Session model and metric results -/

/-- Session entity. Modelled from the spec: entities/models/session.py is
absent from the snapshot; the processor uses its session_id and spans
attributes (spans in original order, all carrying this session id). -/
structure SessionEnt where
  session_id : String
  spans : List SpanEnt

/-- Session collection. Modelled from the spec: entities/models/
session_set.py is absent from the snapshot; the processor uses sessions
and stats.meta.session_ids, a list of (session id, app name) pairs. -/
structure SessionSet where
  sessions : List SessionEnt
  sessionIdsMeta : List (String × String)

/-- Metric result. Modelled from the spec: models/eval.py is absent from
the snapshot; fields are those of the constructor calls in processor.py,
metrics/base.py and the metric bodies, with span_id / session_id as lists
per the data model section of the spec. -/
structure MetricResult where
  metric_name : String
  description : String := ""
  value : PyVal
  reasoning : String := ""
  unit : String := ""
  aggregation_level : String
  category : String := ""
  app_name : String := ""
  span_id : List String := []
  session_id : List String := []
  source : String := ""
  entities_involved : List String := []
  edges_involved : List String := []
  success : Bool
  metadata : PyVal := .dict []
  error_message : Option String := none

/-- Datum handed to a metric compute call. -/
inductive MetricInput where
  | spanIn (s : SpanEnt)
  | sessionIn (sess : SessionEnt)
  | populationIn (ss : SessionSet)

/-- A registered metric class: registry key data plus the behavior the
processor probes (aggregation level, entity-type requirements, required
parameters, init outcome, compute outcome, cache lookup outcome). -/
structure MetricClass where
  className : String
  isBaseMetricSubclass : Bool := true
  aggregation_level : String
  requiredEntityTypes : Option (List String) := none
  requiredParams : List String := []
  initOk : Bool := true
  computeFn : MetricInput → Except String MetricResult
  cacheFn : Option PyVal → Option MetricResult := fun _ => none

/- ### Metric Registry (registry.py) -/

/-- Generic assoc-list assignment with Python dict semantics. -/
def assocInsert {α : Type} : List (String × α) → String → α → List (String × α)
  | [], k, v => [(k, v)]
  | (k0, v0) :: rest, k, v =>
    if k0 = k then (k0, v) :: rest else (k0, v0) :: assocInsert rest k v

/-- Generic assoc-list lookup, first match. -/
def assocGet {α : Type} : List (String × α) → String → Option α
  | [], _ => none
  | (k0, v0) :: rest, k => if k0 = k then some v0 else assocGet rest k

/-- The registry: a dict from class __name__ to the metric class. -/
structure MetricRegistry where
  metrics : List (String × MetricClass)

/-- register_metric (registry.py lines 15-21): raise ValueError when the
argument is not a BaseMetric subclass, else assign under __name__. -/
def register_metric (reg : MetricRegistry) (c : MetricClass) : Except String MetricRegistry :=
  if ¬ c.isBaseMetricSubclass then
    .error ("Metric " ++ c.className ++ " must inherit from BaseMetric")
  else .ok ⟨assocInsert reg.metrics c.className c⟩

def get_metric (reg : MetricRegistry) (name : String) : Option MetricClass :=
  assocGet reg.metrics name

def list_metrics (reg : MetricRegistry) : List String :=
  reg.metrics.map (fun kv => kv.1)

/- ### Metrics Processor (processor.py) -/

/-- Best-effort app name of _safe_compute (lines 115-123): the app_name
attribute when the datum has one (spans do), else the first nested span
of a session, else unknown-app. -/
def appNameForError : MetricInput → String
  | .spanIn s => s.app_name
  | .sessionIn sess =>
    match sess.spans with
    | [] => "unknown-app"
    | sp :: _ => sp.app_name
  | .populationIn _ => "unknown-app"

/-- The failure MetricResult built by the except branch of _safe_compute
(lines 125-142). -/
def failure_result (m : MetricClass) (data : MetricInput) (e : String) : MetricResult :=
  { metric_name := m.className
    description := ""
    value := .num (-1)
    reasoning := ""
    unit := ""
    aggregation_level := m.aggregation_level
    category := "application"
    app_name := appNameForError data
    span_id := []
    session_id := []
    source := "native"
    entities_involved := []
    edges_involved := []
    success := false
    metadata := .dict []
    error_message := some e }

/-- data.session_id as read by the cache branch of _safe_compute. -/
def dataSessionId : MetricInput → Option PyVal
  | .spanIn s => s.session_id
  | .sessionIn sess => some (.str sess.session_id)
  | .populationIn _ => none

/-- _safe_compute (lines 78-142): cache consultation for span and session
levels, then the compute call, with every exception converted into a
failure result. -/
def safe_compute (m : MetricClass) (data : MetricInput) : MetricResult :=
  let cached :=
    if m.aggregation_level = "span" ∨ m.aggregation_level = "session" then
      m.cacheFn (dataSessionId data)
    else none
  match cached with
  | some r => r
  | none =>
    match m.computeFn data with
    | .ok r => r
    | .error e => failure_result m data e

/-- _should_compute_metric_for_span (lines 312-329): no entity-type
requirement applies to all spans; otherwise membership of the span type
in the required list. -/
def should_compute_for_span (m : MetricClass) (span : SpanEnt) : Bool :=
  match m.requiredEntityTypes with
  | none => true
  | some types => types.contains span.entity_type.toName

/-- _check_session_requirements (lines 192-301) over the modelled
SessionEnt, which exposes session_id and spans; a parameter outside
these attributes fails hasattr. -/
def check_session_requirements (sess : SessionEnt) (params : List String) : Bool :=
  params.all (fun p =>
    if p = "session_id" then sess.session_id ≠ ""
    else if p = "spans" then ¬ sess.spans.isEmpty
    else false)

/-- Tasks scheduled for one session: the span-level loop over spans and
registered metrics, then the session-level loop (lines 347-426); the
session loop checks requirements and initializes every metric before the
level test, and context passing is absorbed into computeFn. -/
def session_tasks (reg : MetricRegistry) (sess : SessionEnt) :
    List (MetricClass × MetricInput) :=
  (sess.spans.flatMap (fun span =>
    (list_metrics reg).filterMap (fun name =>
      match get_metric reg name with
      | some mc =>
        if mc.aggregation_level ≠ "span" then none
        else if ¬ should_compute_for_span mc span then none
        else if ¬ mc.initOk then none
        else some (mc, .spanIn span)
      | none => none)))
  ++ (list_metrics reg).filterMap (fun name =>
    match get_metric reg name with
    | some mc =>
      if ¬ check_session_requirements sess mc.requiredParams then none
      else if ¬ mc.initOk then none
      else if mc.aggregation_level = "session" then some (mc, .sessionIn sess)
      else none
    | none => none)

/-- The population-level loop (lines 429-440). -/
def population_tasks (reg : MetricRegistry) (ss : SessionSet) :
    List (MetricClass × MetricInput) :=
  (list_metrics reg).filterMap (fun name =>
    match get_metric reg name with
    | some mc =>
      if mc.initOk ∧ mc.aggregation_level = "population" then some (mc, .populationIn ss)
      else none
    | none => none)

def generate_tasks (reg : MetricRegistry) (ss : SessionSet) :
    List (MetricClass × MetricInput) :=
  ss.sessions.flatMap (session_tasks reg) ++ population_tasks reg ss

/-- The three-bucket result dict, as initialized at lines 341-345. -/
def emptyBuckets : List (String × List MetricResult) :=
  [("span_metrics", []), ("session_metrics", []), ("population_metrics", [])]

/-- Append to metric_results[key]; a missing key is a KeyError. -/
def appendBucket (bs : List (String × List MetricResult)) (key : String)
    (r : MetricResult) : Except String (List (String × List MetricResult)) :=
  match bs with
  | [] => .error ("KeyError: " ++ key)
  | (k, rs) :: rest =>
    if k = key then .ok ((k, rs ++ [r]) :: rest)
    else (appendBucket rest key r).map (fun t => (k, rs) :: t)

/-- The drop test at line 455: value == -1 or value == empty dict. -/
def valueIsSentinel : PyVal → Bool
  | .num q => q = -1
  | .dict [] => true
  | _ => false

/-- The dict comprehension over stats.meta.session_ids: later pairs for
the same key overwrite earlier ones. -/
def strDictOf (pairs : List (String × String)) : List (String × String) :=
  pairs.foldl (fun m kv => assocInsert m kv.1 kv.2) []

def strDictGet : List (String × String) → String → Option String
  | [], _ => none
  | (k0, v0) :: rest, k => if k0 = k then some v0 else strDictGet rest k

/-- One iteration of the result loop (lines 454-463): drop an
unsuccessful sentinel-valued result; back-fill app_name for span and
session results from the session-to-app table via session_id[0]
(IndexError on an empty list); append into the bucket named by the
aggregation level. -/
def assembleStep (appNames : List (String × String))
    (bs : List (String × List MetricResult)) (r : MetricResult) :
    Except String (List (String × List MetricResult)) :=
  if valueIsSentinel r.value && !r.success then pure bs
  else
    let level := r.aggregation_level
    if level = "span" ∨ level = "session" then
      match r.session_id with
      | [] => .error "IndexError: list index out of range"
      | sid :: _ =>
        let r2 := { r with app_name := (strDictGet appNames sid).getD r.app_name }
        appendBucket bs (level ++ "_metrics") r2
    else appendBucket bs (level ++ "_metrics") r

/-- Result assembly (lines 453-463). -/
def assemble_results (results : List MetricResult) (appNames : List (String × String)) :
    Except String (List (String × List MetricResult)) :=
  results.foldlM (assembleStep appNames) emptyBuckets

/-- compute_metrics (lines 331-465): schedule all tasks, gather their
safe_compute results in order, then assemble; with no tasks the three
empty buckets are returned directly. -/
def compute_metrics (reg : MetricRegistry) (ss : SessionSet) :
    Except String (List (String × List MetricResult)) :=
  let tasks := generate_tasks reg ss
  if tasks.isEmpty then .ok emptyBuckets
  else
    let results := tasks.map (fun t => safe_compute t.1 t.2)
    assemble_results results (strDictOf ss.sessionIdsMeta)

/- ### Model Handler cache (C10) -/

/-- Modelled from the spec: model_handler.py is absent from the snapshot;
the spec requires the read-check-create-store sequence of
get_or_create_model to be atomic per (provider, config) key. The state
holds the provider-to-model cache and a construction log. -/
structure ModelCacheState where
  cache : List ((String × String) × Nat)
  constructedKeys : List (String × String)

def cacheLookup : List ((String × String) × Nat) → (String × String) → Option Nat
  | [], _ => none
  | (k0, v0) :: rest, k => if k0 = k then some v0 else cacheLookup rest k

/-- Modelled from the spec: one atomic get_or_create_model call — read,
check, create on miss, store — executed without interleaving. -/
def get_or_create_model (st : ModelCacheState) (key : String × String) :
    ModelCacheState × Nat :=
  match cacheLookup st.cache key with
  | some m => (st, m)
  | none =>
    let m := st.constructedKeys.length
    ({ cache := (key, m) :: st.cache, constructedKeys := st.constructedKeys ++ [key] }, m)

/-- n sequential atomic first-use calls for one key (any serialization of
n concurrent callers, each call being atomic). -/
def runCalls (st : ModelCacheState) (key : String × String) : Nat → ModelCacheState
  | 0 => st
  | n + 1 => runCalls (get_or_create_model st key).1 key n

/-- Number of model constructions performed for a key. -/
def constructionsFor (st : ModelCacheState) (key : String × String) : Nat :=
  st.constructedKeys.countP (fun k => k = key)

/- ### BaseMetric result builders (metrics/base.py lines 60-138) -/

/-- _create_success_result. -/
def create_success_result (name level : String) (score : ℚ) (category appName : String)
    (reasoning : String := "") (entitiesInvolved : List String := [])
    (spanIds : List String := []) (sessionIds : List String := []) : MetricResult :=
  { metric_name := name
    description := ""
    value := .num score
    unit := ""
    aggregation_level := level
    category := category
    app_name := appName
    span_id := spanIds
    session_id := sessionIds
    source := "native"
    entities_involved := entitiesInvolved
    edges_involved := []
    success := true
    metadata := .dict [("metric_type", .str "llm-as-a-judge")]
    error_message := none
    reasoning := reasoning }

/-- _create_error_result. -/
def create_error_result (name level : String) (category appName : String)
    (errorMessage : String := "Computation failed") (entitiesInvolved : List String := [])
    (spanIds : List String := []) (sessionIds : List String := []) : MetricResult :=
  { metric_name := name
    description := ""
    value := .num (-1)
    reasoning := ""
    unit := ""
    aggregation_level := level
    category := category
    app_name := appName
    span_id := spanIds
    session_id := sessionIds
    source := "native"
    entities_involved := entitiesInvolved
    edges_involved := []
    success := false
    metadata := .dict [("metric_type", .str "llm-as-a-judge")]
    error_message := some errorMessage }

/- ### ToolError metric (metrics/span/tool_error.py) -/

mutual

/-- The nested find over a dict: values under a "status" key are yielded
without descending into them; every other value is searched. -/
def statusFindV : PyVal → List PyVal
  | .dict xs => statusFindD xs
  | .list xs => statusFindL xs
  | _ => []

def statusFindL : List PyVal → List PyVal
  | [] => []
  | v :: vs => statusFindV v ++ statusFindL vs

def statusFindD : List (String × PyVal) → List PyVal
  | [] => []
  | (k, v) :: vs => (if k = "status" then [v] else statusFindV v) ++ statusFindD vs

end

/-- A tool definition as a dict (pydantic serialization of the table
entry). -/
def toolDefToVal (d : ToolDef) : PyVal :=
  .dict [("description", d.description.getD .null), ("parameters", d.parameters.getD .null)]

/-- A record as a dict of its present well-known fields (pydantic
serialization of raw_span_data). -/
def recordToVal (r : SpanRecord) : PyVal :=
  .dict (([("operationName", r.operationName),
    ("tags", r.tags.map PyVal.dict),
    ("serviceName", r.serviceName),
    ("spanId", r.spanId),
    ("parentId", r.parentId),
    ("traceId", r.traceId),
    ("startTime", r.startTime),
    ("durationMicros", r.durationMicros),
    ("SpanName", r.SpanName),
    ("SpanAttributes", r.SpanAttributes.map PyVal.dict),
    ("ServiceName", r.ServiceName),
    ("SpanId", r.SpanId),
    ("ParentSpanId", r.ParentSpanId),
    ("TraceId", r.TraceId),
    ("Timestamp", r.Timestamp),
    ("Duration", r.Duration),
    ("ResourceAttributes", r.ResourceAttributes.map PyVal.dict)] :
      List (String × Option PyVal)).filterMap
    (fun kv => kv.2.map (fun v => (kv.1, v))))

/-- dict(data) over a span entity: field name to value, in declaration
order. -/
def spanToDict (s : SpanEnt) : PyVal :=
  .dict [("entity_type", .str s.entity_type.toName),
    ("span_id", s.span_id),
    ("entity_name", s.entity_name),
    ("app_name", .str s.app_name),
    ("agent_id", s.agent_id.getD .null),
    ("input_payload", s.input_payload.getD .null),
    ("output_payload", s.output_payload.getD .null),
    ("message", s.message.getD .null),
    ("tool_definition", (s.tool_definition.map toolDefToVal).getD .null),
    ("contains_error", .bool s.contains_error),
    ("timestamp", s.timestamp),
    ("parent_span_id", s.parent_span_id.getD .null),
    ("trace_id", s.trace_id.getD .null),
    ("session_id", s.session_id.getD .null),
    ("start_time", s.start_time.getD .null),
    ("end_time", (s.end_time.map PyVal.str).getD .null),
    ("duration", (s.duration.map PyVal.num).getD .null),
    ("attrs", (s.attrs.map PyVal.dict).getD .null),
    ("raw_span_data", recordToVal s.raw_span_data)]

/-- ToolError.compute (lines 29-96). The source passes span_id="" and
session_id="" where the result model declares lists; modelled as empty
lists. -/
def ToolError_compute (data : SpanEnt) : MetricResult :=
  if data.entity_type ≠ .tool then
    { metric_name := ""
      description := ""
      reasoning := ""
      value := .num (-1)
      unit := ""
      aggregation_level := ""
      span_id := []
      session_id := []
      source := ""
      entities_involved := []
      edges_involved := []
      success := false
      metadata := .dict []
      error_message := some "" }
  else
    let results := statusFindV (spanToDict data)
    match results with
    | v :: _ =>
      { metric_name := "ToolError"
        description := ""
        value := v
        reasoning := ""
        unit := ""
        aggregation_level := "span"
        span_id := []
        session_id := []
        source := "native"
        entities_involved := []
        edges_involved := []
        success := true
        metadata := .dict []
        error_message := none }
    | [] =>
      { metric_name := "ToolError"
        description := ""
        value := .num (-1)
        reasoning := ""
        unit := ""
        aggregation_level := "span"
        span_id := []
        session_id := []
        source := "native"
        entities_involved := []
        edges_involved := []
        success := false
        metadata := .dict []
        error_message := some "" }

/- ### Generic assoc-list lemmas -/

theorem assocGet_insert_same {α : Type} (m : List (String × α)) (k : String) (v : α) :
    assocGet (assocInsert m k v) k = some v := by
  induction m with
  | nil => simp [assocInsert, assocGet]
  | cons hd tl ih =>
    by_cases h : hd.1 = k
    · simp [assocInsert, assocGet, h]
    · simp [assocInsert, assocGet, h, ih]

theorem assocGet_insert_ne {α : Type} (m : List (String × α)) (k k2 : String) (v : α)
    (h : k ≠ k2) : assocGet (assocInsert m k v) k2 = assocGet m k2 := by
  induction m with
  | nil => simp [assocInsert, assocGet, h]
  | cons hd tl ih =>
    by_cases h0 : hd.1 = k
    · simp [assocInsert, assocGet, h0, h]
    · simp only [assocInsert, if_neg h0]
      by_cases h2 : hd.1 = k2 <;> simp [assocGet, h2, ih]

theorem mem_keys_insert {α : Type} (m : List (String × α)) (k : String) (v : α) :
    k ∈ (assocInsert m k v).map Prod.fst := by
  induction m with
  | nil => simp [assocInsert]
  | cons hd tl ih =>
    by_cases h : hd.1 = k
    · simp [assocInsert, h]
    · simp only [assocInsert, if_neg h, List.map_cons, List.mem_cons]
      exact Or.inr ih

/- ### Claim C5: metric registration -/

def c5MetricV1 : MetricClass :=
  { className := "DemoMetric", aggregation_level := "span", computeFn := fun _ => .error "unused" }

def c5MetricV2 : MetricClass :=
  { className := "DemoMetric", aggregation_level := "session", computeFn := fun _ => .error "unused" }

def c5Bad : MetricClass :=
  { className := "BadMetric", isBaseMetricSubclass := false, aggregation_level := "span",
    computeFn := fun _ => .error "unused" }

/-- C5, counterexample: registering a second metric under an
already-registered name does not fail; register_metric silently replaces
the existing descriptor (the two descriptors differ in aggregation
level). -/
theorem C5_counterexample :
    register_metric ⟨[("DemoMetric", c5MetricV1)]⟩ c5MetricV2 =
      .ok ⟨[("DemoMetric", c5MetricV2)]⟩ ∧
    c5MetricV1.aggregation_level ≠ c5MetricV2.aggregation_level := by
  exact ⟨rfl, by decide⟩

/-- C5, amended: registering a non-BaseMetric class raises ValueError
immediately; registering a conforming class succeeds, after which get
returns it and list contains the name; registering a second conforming
class under the same name succeeds silently and replaces the descriptor
(last registration wins). -/
theorem C5_registration (reg : MetricRegistry) (c cdup : MetricClass) :
    (c.isBaseMetricSubclass = false →
      register_metric reg c =
        .error ("Metric " ++ c.className ++ " must inherit from BaseMetric")) ∧
    (c.isBaseMetricSubclass = true →
      ∃ reg2, register_metric reg c = .ok reg2 ∧
        get_metric reg2 c.className = some c ∧
        c.className ∈ list_metrics reg2 ∧
        (cdup.isBaseMetricSubclass = true → cdup.className = c.className →
          ∃ reg3, register_metric reg2 cdup = .ok reg3 ∧
            get_metric reg3 c.className = some cdup)) := by
  constructor
  · intro h
    simp [register_metric, h]
  · intro h
    refine ⟨⟨assocInsert reg.metrics c.className c⟩, by simp [register_metric, h], ?_, ?_, ?_⟩
    · exact assocGet_insert_same _ _ _
    · exact mem_keys_insert _ _ _
    · intro hdup hname
      refine ⟨⟨assocInsert (assocInsert reg.metrics c.className c) cdup.className cdup⟩,
        by simp [register_metric, hdup], ?_⟩
      rw [get_metric]
      rw [hname]
      exact assocGet_insert_same _ _ _

/-- C5 witness: concrete registrations exercising both the rejection and
the success path of C5_registration. -/
theorem C5_witness :
    register_metric (MetricRegistry.mk []) c5Bad =
      .error "Metric BadMetric must inherit from BaseMetric" ∧
    ∃ reg2, register_metric (MetricRegistry.mk []) c5MetricV1 = .ok reg2 ∧
      get_metric reg2 "DemoMetric" = some c5MetricV1 := by
  constructor
  · exact (C5_registration (MetricRegistry.mk []) c5Bad c5Bad).1 rfl
  · obtain ⟨reg2, h1, h2, _, _⟩ := (C5_registration (MetricRegistry.mk []) c5MetricV1 c5MetricV2).2 rfl
    exact ⟨reg2, h1, h2⟩

/- ### Claim C10: model cache first-use calls -/

theorem runCalls_hit (st : ModelCacheState) (key : String × String) (v : Nat)
    (h : cacheLookup st.cache key = some v) (n : Nat) : runCalls st key n = st := by
  induction n with
  | zero => rfl
  | succ m ih =>
    rw [runCalls, get_or_create_model, h]
    exact ih

/-- C10: with the read-check-create-store sequence atomic (as the spec
requires; model_handler.py is absent from the snapshot, so the handler is
modelled from the spec), any number n of serialized first-use
get_or_create_model calls for a key not yet cached constructs exactly one
model instance for that key. -/
theorem C10_single_construction (st : ModelCacheState) (key : String × String) (n : Nat)
    (hmiss : cacheLookup st.cache key = none) (hn : 1 ≤ n) :
    constructionsFor (runCalls st key n) key = constructionsFor st key + 1 := by
  obtain ⟨m, rfl⟩ : ∃ m, n = m + 1 := ⟨n - 1, by omega⟩
  rw [runCalls, get_or_create_model, hmiss]
  have hhit : cacheLookup ((key, st.constructedKeys.length) :: st.cache) key =
      some st.constructedKeys.length := by
    simp [cacheLookup]
  rw [runCalls_hit _ _ _ hhit]
  simp [constructionsFor, List.countP_append, List.countP_cons]

/-- C10 witness: three serialized calls for one fresh key construct
exactly one model. -/
theorem C10_witness :
    constructionsFor (runCalls ⟨[], []⟩ ("openai", "cfg") 3) ("openai", "cfg") = 1 := by
  have h := C10_single_construction ⟨[], []⟩ ("openai", "cfg") 3 rfl (by omega)
  simpa [constructionsFor] using h

/- ### Claim C4: failure results -/

def c4ToolSpan : SpanEnt :=
  { entity_type := .tool
    span_id := .str "sp1"
    entity_name := .str "calculator"
    app_name := "demo-app"
    agent_id := none
    input_payload := none
    output_payload := none
    message := none
    tool_definition := none
    contains_error := false
    timestamp := .str ""
    parent_span_id := none
    trace_id := none
    session_id := some (.str "sess1")
    start_time := none
    end_time := none
    duration := none
    attrs := none
    raw_span_data := {} }

/-- C4, counterexample: ToolError.compute on a tool span carrying no
status field anywhere returns success=false with an EMPTY error_message,
refuting the invariant that success=false implies a non-empty
error_message. -/
theorem C4_counterexample :
    (ToolError_compute c4ToolSpan).success = false ∧
    (ToolError_compute c4ToolSpan).error_message = some "" ∧
    (ToolError_compute c4ToolSpan).value = .num (-1) := by
  have h : statusFindV (spanToDict c4ToolSpan) = [] := by
    simp [spanToDict, c4ToolSpan, recordToVal, statusFindV, statusFindD, statusFindL]
  refine ⟨?_, ?_, ?_⟩ <;>
    simp [ToolError_compute, show c4ToolSpan.entity_type = EntityType.tool from rfl, h]

/-- C4, amended: for every failure result produced by the cited
constructors, value is the sentinel -1 and error_message is present but
possibly empty: the engine conversion carries exactly the exception text,
_create_error_result carries its message argument, and every unsuccessful
ToolError result carries the empty string. -/
theorem C4_failure_result_shape :
    (∀ (m : MetricClass) (d : MetricInput) (e : String),
      (failure_result m d e).success = false ∧
      (failure_result m d e).value = .num (-1) ∧
      (failure_result m d e).error_message = some e ∧
      (failure_result m d e).metric_name = m.className) ∧
    (∀ (n l cat app msg : String) (ents sp se : List String),
      (create_error_result n l cat app msg ents sp se).success = false ∧
      (create_error_result n l cat app msg ents sp se).value = .num (-1) ∧
      (create_error_result n l cat app msg ents sp se).error_message = some msg) ∧
    (∀ s : SpanEnt, (ToolError_compute s).success = false →
      (ToolError_compute s).value = .num (-1) ∧
      (ToolError_compute s).error_message = some "") := by
  refine ⟨fun m d e => ⟨rfl, rfl, rfl, rfl⟩, fun n l cat app msg ents sp se => ⟨rfl, rfl, rfl⟩, ?_⟩
  intro s hs
  by_cases h : s.entity_type = .tool
  · rw [ToolError_compute] at hs ⊢
    simp only [h] at hs ⊢
    cases hfind : statusFindV (spanToDict s) with
    | nil => simp [hfind]
    | cons v vs => simp [hfind] at hs ⊢
  · rw [ToolError_compute] at hs ⊢
    simp [h] at hs ⊢

/-- C4 witness: the amended shape at a concrete metric, datum and span. -/
theorem C4_witness :
    (failure_result c5MetricV1 (.spanIn c4ToolSpan) "boom").value = .num (-1) ∧
    (ToolError_compute c4ToolSpan).value = .num (-1) ∧
    (ToolError_compute c4ToolSpan).error_message = some "" := by
  refine ⟨(C4_failure_result_shape.1 c5MetricV1 (.spanIn c4ToolSpan) "boom").2.1, ?_⟩
  have h : statusFindV (spanToDict c4ToolSpan) = [] := by
    simp [spanToDict, c4ToolSpan, recordToVal, statusFindV, statusFindD, statusFindL]
  have hsucc : (ToolError_compute c4ToolSpan).success = false := by
    simp [ToolError_compute, show c4ToolSpan.entity_type = EntityType.tool from rfl, h]
  exact C4_failure_result_shape.2.2 c4ToolSpan hsucc

/- ### Claim C9: timing computation -/

/-- C9, counterexample: a span with a present, parseable start time and a
present but zero raw duration gets end_time None and duration None —
the truthiness guards treat a zero duration as missing, where the claim
requires end = start + 0 and duration_ms = 0. -/
theorem C9_counterexample :
    calculate_end_time (some (.str "5.0")) (some (.num 0)) = none ∧
    calculate_duration_ms (some (.str "5.0"))
      (calculate_end_time (some (.str "5.0")) (some (.num 0))) (some (.num 0)) = none := by
  constructor <;>
    simp [calculate_end_time, calculate_duration_ms, pyTruthy, PyVal.truthy]

/-- C9, amended: when start time and raw duration are truthy (present and
non-zero / non-empty) and both float-parse, end_time is start + the
nanosecond duration converted to seconds, and duration_ms comes
preferentially from the raw duration (ns to ms); when the raw duration is
unusable, duration_ms falls back to (end - start) * 1000 for truthy,
parseable times; every missing, untruthy or unparseable field makes the
affected result None, and the computation is total (never raises). -/
theorem C9_timing (st dn : Option PyVal) :
    (∀ a b : ℚ, pyTruthy st = true → pyTruthy dn = true →
      pyFloat st = some a → pyFloat dn = some b →
      calculate_end_time st dn = some (renderRat (a + b / 1000000000)) ∧
      calculate_duration_ms st (calculate_end_time st dn) dn = some (b / 1000000)) ∧
    (pyTruthy st = false ∨ pyTruthy dn = false → calculate_end_time st dn = none) ∧
    (pyFloat st = none ∨ pyFloat dn = none → calculate_end_time st dn = none) ∧
    (∀ b : ℚ, pyTruthy dn = true → pyFloat dn = some b →
      ∀ et, calculate_duration_ms st et dn = some (b / 1000000)) ∧
    ((pyTruthy dn = false ∨ pyFloat dn = none) →
      ∀ (a e : ℚ) (es : String), pyTruthy st = true → es ≠ "" →
        pyFloat st = some a → parseFloat es = some e →
        calculate_duration_ms st (some es) dn = some ((e - a) * 1000)) ∧
    ((pyTruthy dn = false ∨ pyFloat dn = none) →
      calculate_duration_ms st none dn = none) := by
  refine ⟨?_, ?_, ?_, ?_, ?_, ?_⟩
  · intro a b hst hdn hfa hfb
    constructor
    · simp [calculate_end_time, hst, hdn, hfa, hfb]
    · simp [calculate_duration_ms, hdn, hfb]
  · intro h
    rcases h with h | h <;> simp [calculate_end_time, h]
  · intro h
    by_cases hc : pyTruthy st = true ∧ pyTruthy dn = true
    · rcases h with h | h
      · simp [calculate_end_time, hc.1, hc.2, h]
      · cases hx : pyFloat st <;> simp [calculate_end_time, hc.1, hc.2, h, hx]
    · rw [calculate_end_time]
      rw [if_neg (by tauto)]
  · intro b hdn hfb et
    simp [calculate_duration_ms, hdn, hfb]
  · intro h a e es hst hes hfa hfe
    have hm : (if pyTruthy dn = true then pyFloat dn else none) = none := by
      rcases h with h | h <;> simp [h]
    simp [calculate_duration_ms, hm, hst, hes, hfa, hfe]
  · intro h
    have hm : (if pyTruthy dn = true then pyFloat dn else none) = none := by
      rcases h with h | h <;> simp [h]
    simp [calculate_duration_ms, hm]

/-- C9 witness: concrete numeric start time and one-second duration. -/
theorem C9_witness :
    calculate_end_time (some (.num 2)) (some (.num 1000000000)) =
      some (renderRat (2 + 1000000000 / 1000000000)) ∧
    calculate_duration_ms (some (.num 2))
      (calculate_end_time (some (.num 2)) (some (.num 1000000000)))
      (some (.num 1000000000)) = some (1000000000 / 1000000) := by
  exact (C9_timing (some (.num 2)) (some (.num 1000000000))).1 2 1000000000
    (by decide) (by decide) rfl rfl

/- ### Claim C3: entity classification -/

def c3AutoRecord : SpanRecord :=
  { SpanName := some (.str "autogen process Foo_1.chat"), SpanAttributes := some [] }

def c3ToolRecord : SpanRecord :=
  { SpanName := some (.str "calc.tool"), SpanAttributes := some [] }

theorem build_entity_type (tds : List (String × ToolDef)) (r : SpanRecord) (t : EntityType) :
    (build_span_entity tds r t).entity_type = t := rfl

/-- C3, counterexample: a record whose lower-cased name ends in ".chat"
but contains "autogen process" is emitted as an agent entity, not an llm
entity — the framework-override rules take precedence over the suffix
table, refuting the unconditional suffix mapping. -/
theorem C3_counterexample :
    strEndsWith (spanNameLower c3AutoRecord) ".chat" = true ∧
    (parse_raw_spans [c3AutoRecord]).map (fun es => es.map (fun e => e.entity_type)) =
      some [EntityType.agent] ∧
    EntityType.agent ≠ EntityType.llm := by
  refine ⟨by decide, by rfl, by decide⟩

/-- C3, amended: each normalized record classified by the rule chain
yields exactly one SpanEntity with that entity type and unclassified
records are silently absent; the suffix table maps .chat to llm, .tool to
tool, .agent to agent, .workflow to workflow, .graph to graph, .task to
task for records not matching an override, while the Autogen substring
overrides ("autogen process" to agent, "autogen create" to workflow)
take precedence over the suffix result. -/
theorem C3_classification (spans converted : List SpanRecord) (es : List SpanEnt) (n : String) :
    (spans.mapM normalize_span = some converted → parse_raw_spans spans = some es →
      es.map (fun e => e.entity_type) =
        converted.filterMap (fun r => classify_span_name (spanNameLower r))) ∧
    (strEndsWith n ".chat" = true → entitySuffixType n = some .llm) ∧
    (strEndsWith n ".chat" = false → strEndsWith n ".tool" = true →
      entitySuffixType n = some .tool) ∧
    (strEndsWith n ".chat" = false → strEndsWith n ".tool" = false →
      strEndsWith n ".agent" = true → entitySuffixType n = some .agent) ∧
    (strEndsWith n ".chat" = false → strEndsWith n ".tool" = false →
      strEndsWith n ".agent" = false → strEndsWith n ".workflow" = true →
      entitySuffixType n = some .workflow) ∧
    (strEndsWith n ".chat" = false → strEndsWith n ".tool" = false →
      strEndsWith n ".agent" = false → strEndsWith n ".workflow" = false →
      strEndsWith n ".graph" = true → entitySuffixType n = some .graph) ∧
    (strEndsWith n ".chat" = false → strEndsWith n ".tool" = false →
      strEndsWith n ".agent" = false → strEndsWith n ".workflow" = false →
      strEndsWith n ".graph" = false → strEndsWith n ".task" = true →
      entitySuffixType n = some .task) ∧
    (strEndsWith n ".chat" = false → strEndsWith n ".tool" = false →
      strEndsWith n ".agent" = false → strEndsWith n ".workflow" = false →
      strEndsWith n ".graph" = false → strEndsWith n ".task" = false →
      entitySuffixType n = none) ∧
    (containsSub n "autogen create" = false → containsSub n "autogen process" = true →
      classify_span_name n = some .agent) ∧
    (containsSub n "autogen create" = true → classify_span_name n = some .workflow) ∧
    (containsSub n "autogen process" = false → containsSub n "autogen create" = false →
      classify_span_name n = entitySuffixType n) := by
  refine ⟨?_, ?_, ?_, ?_, ?_, ?_, ?_, ?_, ?_, ?_, ?_⟩
  · intro hconv hparse
    rw [parse_raw_spans, hconv] at hparse
    simp only [Option.some.injEq] at hparse
    subst hparse
    clear hconv
    generalize extract_tool_definitions _ = tds
    induction converted with
    | nil => rfl
    | cons r rest ih =>
      cases hc : classify_span_name (spanNameLower r) with
      | none => simpa [List.filterMap_cons, hc] using ih
      | some t => simpa [List.filterMap_cons, hc, build_entity_type] using ih
  · intro h; simp [entitySuffixType, h]
  · intro h1 h2; simp [entitySuffixType, h1, h2]
  · intro h1 h2 h3; simp [entitySuffixType, h1, h2, h3]
  · intro h1 h2 h3 h4; simp [entitySuffixType, h1, h2, h3, h4]
  · intro h1 h2 h3 h4 h5; simp [entitySuffixType, h1, h2, h3, h4, h5]
  · intro h1 h2 h3 h4 h5 h6; simp [entitySuffixType, h1, h2, h3, h4, h5, h6]
  · intro h1 h2 h3 h4 h5 h6; simp [entitySuffixType, h1, h2, h3, h4, h5, h6]
  · intro h1 h2; simp [classify_span_name, h1, h2]
  · intro h1; simp [classify_span_name, h1]
  · intro h1 h2; simp [classify_span_name, h1, h2]

/-- C3 witness: a plain .tool record classifies to exactly one tool
entity. -/
theorem C3_witness :
    (parse_raw_spans [c3ToolRecord]).map (fun es => es.map (fun e => e.entity_type)) =
      some [EntityType.tool] := by
  have hsome : (parse_raw_spans [c3ToolRecord]).isSome = true := by rfl
  cases hp : parse_raw_spans [c3ToolRecord] with
  | none => rw [hp] at hsome; simp at hsome
  | some es =>
    have h := (C3_classification [c3ToolRecord] [c3ToolRecord] es "x").1 rfl hp
    show some (es.map (fun e => e.entity_type)) = some [EntityType.tool]
    exact congrArg some (h.trans (by rfl))

/- ### Claim C6: payload normalization invariant -/

def isMappingOrNone : Option PyVal → Prop
  | none => True
  | some (.dict _) => True
  | some _ => False

theorem ensure_dict_payload_shape (p : Option PyVal) :
    isMappingOrNone (ensure_dict_payload p) := by
  match p with
  | none => trivial
  | some (.dict d) => trivial
  | some .null => trivial
  | some (.bool b) => trivial
  | some (.num q) => trivial
  | some (.str s) => trivial
  | some (.list xs) => trivial

def c6ToolRecord : SpanRecord :=
  { SpanName := some (.str "t.tool"), SpanAttributes := some [("unrelated", .str "x")] }

/-- C6: every produced SpanEntity has input_payload and output_payload
equal to a mapping or None (non-mappings are wrapped by
ensure_dict_payload, None stays None), and a tool record without the
recognized input and output attribute keys yields both payloads None,
with no exception path. -/
theorem C6_payload_invariant :
    (∀ p, isMappingOrNone (ensure_dict_payload p)) ∧
    (∀ spans es e, parse_raw_spans spans = some es → e ∈ es →
      isMappingOrNone e.input_payload ∧ isMappingOrNone e.output_payload) ∧
    (∀ tds r, pyGet (attrsOf r) "traceloop.entity.input" = none →
      pyGet (attrsOf r) "traceloop.entity.output" = none →
      (build_span_entity tds r .tool).input_payload = none ∧
      (build_span_entity tds r .tool).output_payload = none) := by
  refine ⟨ensure_dict_payload_shape, ?_, ?_⟩
  · intro spans es e hparse hmem
    rw [parse_raw_spans] at hparse
    cases hconv : spans.mapM normalize_span with
    | none => rw [hconv] at hparse; exact absurd hparse (by simp)
    | some converted =>
      rw [hconv] at hparse
      simp only [Option.some.injEq] at hparse
      subst hparse
      simp only [List.mem_map] at hmem
      obtain ⟨rt, _, rfl⟩ := hmem
      constructor <;>
        · simp only [build_span_entity]
          exact ensure_dict_payload_shape _
  · intro tds r h1 h2
    constructor <;>
      simp [build_span_entity, inputKeyOf, outputKeyOf, h1, h2, process_generic_payload,
        ensure_dict_payload]

/-- C6 witness: a tool record with an unrelated attribute and neither
payload key yields both payloads None. -/
theorem C6_witness :
    (build_span_entity [] c6ToolRecord .tool).input_payload = none ∧
    (build_span_entity [] c6ToolRecord .tool).output_payload = none :=
  C6_payload_invariant.2.2 [] c6ToolRecord rfl rfl

/- ### Claim C8: normalization identity and idempotence -/

theorem convert_idem (r c : SpanRecord) (o : PyVal) (t : List (String × PyVal))
    (ho : r.operationName = some o) (ht : r.tags = some t)
    (hc : convert_jaeger_to_standard r = some c) :
    convert_jaeger_to_standard c = some c ∧ detect_span_format c = "jaeger" := by
  cases hdm : r.durationMicros with
  | none =>
    cases hsv : r.serviceName <;> cases hsp : r.spanId <;> cases hpi : r.parentId <;>
      cases hti : r.traceId <;> cases hst : r.startTime <;>
      · simp only [convert_jaeger_to_standard, ho, ht, hsv, hsp, hpi, hti, hst, hdm,
          Option.some.injEq] at hc
        subst hc
        constructor
        · simp [convert_jaeger_to_standard, ho, ht, hsv, hsp, hpi, hti, hst, hdm]
        · simp [detect_span_format, ho, ht]
  | some dm =>
    cases hmm : pyMul1000 dm with
    | none =>
      rw [convert_jaeger_to_standard] at hc
      simp only [hdm, hmm] at hc
      exact absurd hc (by simp)
    | some d =>
      cases hsv : r.serviceName <;> cases hsp : r.spanId <;> cases hpi : r.parentId <;>
        cases hti : r.traceId <;> cases hst : r.startTime <;>
        · simp only [convert_jaeger_to_standard, ho, ht, hsv, hsp, hpi, hti, hst, hdm, hmm,
            Option.some.injEq] at hc
          subst hc
          constructor
          · simp [convert_jaeger_to_standard, ho, ht, hsv, hsp, hpi, hti, hst, hdm, hmm]
          · simp [detect_span_format, ho, ht]

/-- C8: normalization is the identity on canonical-shape (standard)
records, and normalizing twice equals normalizing once — also for
legacy (Jaeger) records, whose conversion recomputes every derived field
from the retained legacy fields and lands on the same values. -/
theorem C8_normalize_idempotent (r c : SpanRecord) :
    (detect_span_format r = "standard" → normalize_span r = some r) ∧
    (normalize_span r = some c → normalize_span c = some c) := by
  constructor
  · intro h
    simp [normalize_span, h]
  · intro hn
    by_cases hj : detect_span_format r = "jaeger"
    · have hcond : r.operationName.isSome ∧ r.tags.isSome := by
        by_contra hno
        rw [detect_span_format, if_neg hno] at hj
        by_cases hs : r.SpanName.isSome ∧ r.SpanAttributes.isSome
        · rw [if_pos hs] at hj; simp at hj
        · rw [if_neg hs] at hj; simp at hj
      obtain ⟨o, ho⟩ := Option.isSome_iff_exists.mp hcond.1
      obtain ⟨t, ht⟩ := Option.isSome_iff_exists.mp hcond.2
      rw [normalize_span, if_pos hj] at hn
      have hidem := convert_idem r c o t ho ht hn
      rw [normalize_span, if_pos hidem.2]
      exact hidem.1
    · rw [normalize_span, if_neg hj] at hn
      obtain rfl := Option.some.inj hn
      rw [normalize_span, if_neg hj]

def c8StdRecord : SpanRecord :=
  { SpanName := some (.str "a.chat"), SpanAttributes := some [] }

def c8JaegerRecord : SpanRecord :=
  { operationName := some (.str "a.chat"), tags := some [("k", .str "v")],
    traceId := some (.str "tr1"), startTime := some (.str "notanumber") }

/-- C8 witness: a concrete standard record is untouched, and a concrete
Jaeger record normalizes to a fixed point. -/
theorem C8_witness :
    normalize_span c8StdRecord = some c8StdRecord ∧
    ∃ cj, normalize_span c8JaegerRecord = some cj ∧ normalize_span cj = some cj := by
  constructor
  · exact (C8_normalize_idempotent c8StdRecord c8StdRecord).1 (by rfl)
  · have hsome : (normalize_span c8JaegerRecord).isSome = true := by rfl
    cases hp : normalize_span c8JaegerRecord with
    | none => rw [hp] at hsome; simp at hsome
    | some cj => exact ⟨cj, rfl, (C8_normalize_idempotent c8JaegerRecord cj).2 hp⟩

/- ### Claim C7: tool definition extraction -/

theorem digitChar_ne_dot (d : Nat) (h : d < 10) : Nat.digitChar d ≠ '.' := by
  interval_cases d <;> decide

theorem dot_not_mem_natDigitsAux (fuel : Nat) : ∀ n, '.' ∉ natDigitsAux n fuel := by
  induction fuel with
  | zero => intro n; simp [natDigitsAux]
  | succ fuel ih =>
    intro n
    by_cases h : n < 10
    · rw [natDigitsAux]
      simp only [h, if_true, List.mem_singleton]
      intro hc
      exact digitChar_ne_dot n h hc.symm
    · rw [natDigitsAux]
      simp only [h, if_false, List.mem_cons]
      rintro (hc | hc)
      · exact digitChar_ne_dot (n % 10) (Nat.mod_lt n (by omega)) hc.symm
      · exact ih (n / 10) hc

theorem dot_not_mem_natDigits (n : Nat) : '.' ∉ natDigits n :=
  dot_not_mem_natDigitsAux (n + 1) n

theorem dot_not_mem_natToStr (n : Nat) : '.' ∉ (natToStr n).data := by
  intro h
  rw [natToStr] at h
  exact dot_not_mem_natDigits n (List.mem_reverse.mp h)

theorem dot_split_unique (xs : List Char) (u : List Char) :
    ∀ ys v, '.' ∉ xs → '.' ∉ ys → xs ++ '.' :: u = ys ++ '.' :: v → xs = ys ∧ u = v := by
  induction xs generalizing u with
  | nil =>
    intro ys v _ hys h
    cases ys with
    | nil => simpa using h
    | cons y ys2 =>
      simp only [List.nil_append, List.cons_append, List.cons.injEq] at h
      exact absurd (h.1 ▸ List.mem_cons_self y ys2) (by simp only [← h.1] at hys; exact hys)
  | cons x xs2 ih =>
    intro ys v hxs hys h
    cases ys with
    | nil =>
      simp only [List.cons_append, List.nil_append, List.cons.injEq] at h
      exact absurd (h.1 ▸ List.mem_cons_self x xs2) (by simp only [h.1] at hxs; exact hxs)
    | cons y ys2 =>
      simp only [List.cons_append, List.cons.injEq] at h
      obtain ⟨rfl, h2⟩ := h
      have := ih u ys2 v (fun hm => hxs (List.mem_cons_of_mem _ hm))
        (fun hm => hys (List.mem_cons_of_mem _ hm)) h2
      exact ⟨by rw [this.1], this.2⟩

theorem fnKey_inj (i j : Nat) (f g : String) (h : fnKey i f = fnKey j g) :
    i = j ∧ f = g := by
  have hdata : (fnKey i f).data = (fnKey j g).data := congrArg String.data h
  rw [fnKey, fnKey] at hdata
  simp only [String.data_append, List.append_assoc] at hdata
  have hcancel := List.append_cancel_left hdata
  simp only [List.singleton_append] at hcancel
  obtain ⟨h1, h2⟩ := dot_split_unique (natToStr i).data f.data (natToStr j).data g.data
    (dot_not_mem_natToStr i) (dot_not_mem_natToStr j) hcancel
  constructor
  · exact natToStr_injective (by apply String.ext; exact h1)
  · apply String.ext; exact h2

/-- Attribute row carrying the indexed tool-definition triples
(name, description, parameters) contiguously from index i. -/
def mkToolAttrs : Nat → List (String × PyVal × PyVal) → List (String × PyVal)
  | _, [] => []
  | i, (n, dp) :: rest =>
    (fnKey i "name", .str n) :: (fnKey i "description", dp.1) ::
      (fnKey i "parameters", dp.2) :: mkToolAttrs (i + 1) rest

theorem mkToolAttrs_length (i : Nat) (L : List (String × PyVal × PyVal)) :
    (mkToolAttrs i L).length = 3 * L.length := by
  induction L generalizing i with
  | nil => rfl
  | cons x rest ih => simp [mkToolAttrs, ih]; omega

theorem pyGet_mkToolAttrs_lt (L : List (String × PyVal × PyVal)) (i j : Nat) (f : String)
    (hj : j < i) : pyGet (mkToolAttrs i L) (fnKey j f) = none := by
  induction L generalizing i with
  | nil => rfl
  | cons x rest ih =>
    obtain ⟨n, d, p⟩ := x
    have hne : ∀ g, ¬ (fnKey i g = fnKey j f) := fun g hg => by
      obtain ⟨h1, _⟩ := fnKey_inj i j g f hg
      omega
    simp only [mkToolAttrs, pyGet, hne, if_false]
    exact ih (i + 1) (by omega)

theorem pyGet_mkToolAttrs_skip (L : List (String × PyVal × PyVal))
    (n : String) (d p : PyVal) (i j : Nat) (f : String) (hj : i < j) :
    pyGet (mkToolAttrs i ((n, d, p) :: L)) (fnKey j f) =
      pyGet (mkToolAttrs (i + 1) L) (fnKey j f) := by
  have hne : ∀ g, ¬ (fnKey i g = fnKey j f) := fun g hg => by
    obtain ⟨h1, _⟩ := fnKey_inj i j g f hg
    omega
  simp only [mkToolAttrs, pyGet, hne, if_false]

theorem fnKey_field_ne (i : Nat) (f g : String) (h : f ≠ g) : fnKey i f ≠ fnKey i g :=
  fun hc => h (fnKey_inj i i f g hc).2

theorem pyGet_mkToolAttrs_name (L : List (String × PyVal × PyVal))
    (n : String) (d p : PyVal) (i : Nat) :
    pyGet (mkToolAttrs i ((n, d, p) :: L)) (fnKey i "name") = some (.str n) := by
  simp [mkToolAttrs, pyGet]

theorem pyGet_mkToolAttrs_desc (L : List (String × PyVal × PyVal))
    (n : String) (d p : PyVal) (i : Nat) :
    pyGet (mkToolAttrs i ((n, d, p) :: L)) (fnKey i "description") = some d := by
  have h1 := fnKey_field_ne i "name" "description" (by decide)
  simp [mkToolAttrs, pyGet, h1]

theorem pyGet_mkToolAttrs_params (L : List (String × PyVal × PyVal))
    (n : String) (d p : PyVal) (i : Nat) :
    pyGet (mkToolAttrs i ((n, d, p) :: L)) (fnKey i "parameters") = some p := by
  have h1 := fnKey_field_ne i "name" "parameters" (by decide)
  have h2 := fnKey_field_ne i "description" "parameters" (by decide)
  simp [mkToolAttrs, pyGet, h1, h2]

/-- collectRow only reads indexed keys at or above its index. -/
theorem collectRow_congr (attrs1 attrs2 : List (String × PyVal)) (tbl : List (String × ToolDef))
    (j fuel : Nat)
    (h : ∀ k f, j ≤ k → pyGet attrs1 (fnKey k f) = pyGet attrs2 (fnKey k f)) :
    collectRow attrs1 tbl j fuel = collectRow attrs2 tbl j fuel := by
  induction fuel generalizing tbl j with
  | zero => rfl
  | succ fuel ih =>
    rw [collectRow, collectRow]
    rw [h j "name" (le_refl j), h j "description" (le_refl j), h j "parameters" (le_refl j)]
    cases hx : pyGet attrs2 (fnKey j "name") with
    | none => simp [hx]
    | some v =>
      simp only [hx, Option.isSome_some, if_true]
      exact ih _ (j + 1) (fun k f hk => h k f (by omega))

/-- One first-wins insertion step of the extraction loop. -/
def tdStep (tbl : List (String × ToolDef)) (x : String × PyVal × PyVal) :
    List (String × ToolDef) :=
  if x.1 ≠ "" ∧ (lookupTbl tbl x.1).isNone then
    tbl ++ [(x.1, ⟨some x.2.1, safe_parse_json (some x.2.2)⟩)]
  else tbl

/-- The while loop over a fully-present contiguous triple row equals the
first-wins fold over the triples. -/
theorem collectRow_mkToolAttrs (L : List (String × PyVal × PyVal)) (i : Nat)
    (tbl : List (String × ToolDef)) (fuel : Nat) (hf : L.length < fuel) :
    collectRow (mkToolAttrs i L) tbl i fuel = L.foldl tdStep tbl := by
  induction L generalizing i tbl fuel with
  | nil =>
    obtain ⟨f2, rfl⟩ : ∃ f2, fuel = f2 + 1 := ⟨fuel - 1, by omega⟩
    rw [collectRow]
    simp [mkToolAttrs, pyGet]
  | cons x rest ih =>
    obtain ⟨n, d, p⟩ := x
    obtain ⟨f2, rfl⟩ : ∃ f2, fuel = f2 + 1 := ⟨fuel - 1, by omega⟩
    rw [collectRow]
    rw [pyGet_mkToolAttrs_name, pyGet_mkToolAttrs_desc, pyGet_mkToolAttrs_params]
    simp only [Option.isSome_some, if_true]
    have hskip : ∀ k f, i + 1 ≤ k →
        pyGet (mkToolAttrs i ((n, d, p) :: rest)) (fnKey k f) =
          pyGet (mkToolAttrs (i + 1) rest) (fnKey k f) :=
      fun k f hk => pyGet_mkToolAttrs_skip rest n d p i k f (by omega)
    rw [collectRow_congr (mkToolAttrs i ((n, d, p) :: rest)) (mkToolAttrs (i + 1) rest)
      _ _ _ hskip]
    rw [List.foldl_cons]
    exact ih (i + 1) _ f2 (by simpa using hf)

theorem lookupTbl_append (a b : List (String × ToolDef)) (n : String) :
    lookupTbl (a ++ b) n =
      match lookupTbl a n with
      | some d => some d
      | none => lookupTbl b n := by
  induction a with
  | nil => rfl
  | cons hd tl ih =>
    by_cases h : hd.1 = n
    · simp [lookupTbl, h]
    · simp [lookupTbl, h, ih]

theorem foldl_tdStep_lookup (L : List (String × PyVal × PyVal))
    (tbl : List (String × ToolDef)) (n : String) (hn : n ≠ "") :
    lookupTbl (L.foldl tdStep tbl) n =
      match lookupTbl tbl n with
      | some d => some d
      | none => (L.find? (fun x => x.1 == n)).map
          (fun x => (⟨some x.2.1, safe_parse_json (some x.2.2)⟩ : ToolDef)) := by
  induction L generalizing tbl with
  | nil => cases h : lookupTbl tbl n <;> simp [h]
  | cons x rest ih =>
    rw [List.foldl_cons, ih]
    by_cases hxn : x.1 = n
    · cases hlk : lookupTbl tbl n with
      | some d =>
        have : lookupTbl (tdStep tbl x) n = some d := by
          rw [tdStep]
          by_cases hc : x.1 ≠ "" ∧ (lookupTbl tbl x.1).isNone
          · rw [hxn] at hc
            rw [hlk] at hc
            simp at hc
          · rw [if_neg hc]
            exact hlk
        simp [this, hlk]
      | none =>
        have : lookupTbl (tdStep tbl x) n =
            some ⟨some x.2.1, safe_parse_json (some x.2.2)⟩ := by
          rw [tdStep]
          have hc : x.1 ≠ "" ∧ (lookupTbl tbl x.1).isNone := by
            rw [hxn, hlk]
            exact ⟨hn, rfl⟩
          rw [if_pos hc, lookupTbl_append, hlk]
          simp [lookupTbl, hxn]
        simp [this, hlk, List.find?_cons, hxn]
    · have : lookupTbl (tdStep tbl x) n = lookupTbl tbl n := by
        rw [tdStep]
        by_cases hc : x.1 ≠ "" ∧ (lookupTbl tbl x.1).isNone
        · rw [if_pos hc, lookupTbl_append]
          cases h2 : lookupTbl tbl n with
          | some d => rfl
          | none => simp [lookupTbl, hxn]
        · rw [if_neg hc]
      rw [this]
      cases h2 : lookupTbl tbl n with
      | some d => rfl
      | none => simp [List.find?_cons, show (x.1 == n) = false by simpa using hxn]

theorem foldl_tdStep_length (L : List (String × PyVal × PyVal))
    (tbl : List (String × ToolDef))
    (hdist : L.Pairwise (fun a b => a.1 ≠ b.1))
    (hfresh : ∀ x ∈ L, lookupTbl tbl x.1 = none)
    (hne : ∀ x ∈ L, x.1 ≠ "") :
    (L.foldl tdStep tbl).length = tbl.length + L.length := by
  induction L generalizing tbl with
  | nil => simp
  | cons x rest ih =>
    rw [List.foldl_cons]
    have hstep : tdStep tbl x = tbl ++ [(x.1, ⟨some x.2.1, safe_parse_json (some x.2.2)⟩)] := by
      rw [tdStep, if_pos ⟨hne x (List.mem_cons_self x rest), by
        rw [hfresh x (List.mem_cons_self x rest)]; rfl⟩]
    have hrest_fresh : ∀ y ∈ rest,
        lookupTbl (tbl ++ [(x.1, ⟨some x.2.1, safe_parse_json (some x.2.2)⟩)]) y.1 = none := by
      intro y hy
      rw [lookupTbl_append, hfresh y (List.mem_cons_of_mem x hy)]
      have hyx : x.1 ≠ y.1 := (List.pairwise_cons.mp hdist).1 y hy
      simp [lookupTbl, hyx]
    rw [hstep, ih _ (List.pairwise_cons.mp hdist).2 hrest_fresh
      (fun y hy => hne y (List.mem_cons_of_mem x hy))]
    simp
    omega

/-- The batch-wide tool definition table built by parse_raw_spans: the
llm attribute rows of the classified, normalized records. -/
def batchToolTable (spans : List SpanRecord) : List (String × ToolDef) :=
  match spans.mapM normalize_span with
  | none => []
  | some converted =>
    extract_tool_definitions ((converted.filterMap (fun r =>
      (classify_span_name (spanNameLower r)).map (fun t => (r, t)))).filterMap (fun rt =>
        if rt.2 = .llm then some (attrsOf rt.1) else none))

theorem build_tool_definition_lookup (tds : List (String × ToolDef)) (r : SpanRecord) :
    (build_span_entity tds r .tool).tool_definition =
      match (build_span_entity tds r .tool).entity_name with
      | .str s => lookupTbl tds s
      | _ => none := by
  simp [build_span_entity]

def c7TriplesDistinct : List (String × PyVal × PyVal) :=
  [("alpha", .str "d1", .str "p1"), ("beta", .str "d2", .str "p2")]

def c7TriplesCollide : List (String × PyVal × PyVal) :=
  [("alpha", .str "d1", .str "p1"), ("alpha", .str "dup", .str "p2")]

def c7LlmRecord : SpanRecord :=
  { SpanName := some (.str "m.chat"), SpanAttributes := some (mkToolAttrs 0 c7TriplesDistinct) }

def c7ToolRecord : SpanRecord :=
  { SpanName := some (.str "alpha.tool"),
    SpanAttributes := some [("traceloop.entity.name", .str "alpha")] }

def c7Batch : List SpanRecord := [c7LlmRecord, c7ToolRecord]

/-- C7: a row of k fully-present contiguous indexed triples with
pairwise-distinct nonempty names yields a table with exactly k entries;
for any nonempty name the table entry is the first triple bearing that
name (first occurrence wins); and in the parse output every tool
entity resolves tool_definition by looking up its entity_name in the
one batch-wide table. -/
theorem C7_tool_definitions (L : List (String × PyVal × PyVal)) (n : String)
    (spans : List SpanRecord) (es : List SpanEnt) (e : SpanEnt) :
    (L.Pairwise (fun a b => a.1 ≠ b.1) → (∀ x ∈ L, x.1 ≠ "") →
      (extract_tool_definitions [mkToolAttrs 0 L]).length = L.length) ∧
    (n ≠ "" → lookupTbl (extract_tool_definitions [mkToolAttrs 0 L]) n =
      (L.find? (fun x => x.1 == n)).map
        (fun x => (⟨some x.2.1, safe_parse_json (some x.2.2)⟩ : ToolDef))) ∧
    (parse_raw_spans spans = some es → e ∈ es → e.entity_type = .tool →
      e.tool_definition =
        match e.entity_name with
        | .str s => lookupTbl (batchToolTable spans) s
        | _ => none) := by
  have hrow : extract_tool_definitions [mkToolAttrs 0 L] = L.foldl tdStep [] := by
    rw [extract_tool_definitions, List.foldl_cons, List.foldl_nil]
    exact collectRow_mkToolAttrs L 0 [] _ (by rw [mkToolAttrs_length]; omega)
  refine ⟨?_, ?_, ?_⟩
  · intro hdist hne
    rw [hrow]
    rw [foldl_tdStep_length L [] hdist (fun x _ => rfl) hne]
    simp
  · intro hn
    rw [hrow]
    rw [foldl_tdStep_lookup L [] n hn]
    rfl
  · intro hparse hmem htool
    rw [parse_raw_spans] at hparse
    cases hconv : spans.mapM normalize_span with
    | none => rw [hconv] at hparse; exact absurd hparse (by simp)
    | some converted =>
      rw [hconv] at hparse
      simp only [Option.some.injEq] at hparse
      subst hparse
      simp only [List.mem_map] at hmem
      obtain ⟨rt, hrt, rfl⟩ := hmem
      have ht : rt.2 = .tool := by
        rw [build_entity_type] at htool
        exact htool
      rw [batchToolTable, hconv]
      rw [ht]
      exact build_tool_definition_lookup _ rt.1

set_option maxHeartbeats 2000000 in
/-- C7 witness: two distinct triples give two entries; on a collision the
first triple wins; a concrete batch with an llm row carrying the triples
and a tool span named alpha resolves that tool definition from the batch
table. -/
theorem C7_witness :
    (extract_tool_definitions [mkToolAttrs 0 c7TriplesDistinct]).length = 2 ∧
    lookupTbl (extract_tool_definitions [mkToolAttrs 0 c7TriplesCollide]) "alpha" =
      some ⟨some (.str "d1"), safe_parse_json (some (.str "p1"))⟩ ∧
    (∃ es, parse_raw_spans c7Batch = some es ∧ ∃ e ∈ es, e.entity_type = .tool ∧
      e.tool_definition = lookupTbl (batchToolTable c7Batch) "alpha") := by
  refine ⟨?_, ?_, ?_⟩
  · have h := (C7_tool_definitions c7TriplesDistinct "x" [] [] c4ToolSpan).1
      (by decide) (by decide)
    exact h
  · have h := (C7_tool_definitions c7TriplesCollide "alpha" [] [] c4ToolSpan).2.1
      (by decide)
    rw [h]
    rfl
  · have hsome : (parse_raw_spans c7Batch).isSome = true := by rfl
    cases hp : parse_raw_spans c7Batch with
    | none => rw [hp] at hsome; simp at hsome
    | some es =>
      have hlen : es.length = 2 := by
        have h2 : (parse_raw_spans c7Batch).map List.length = some 2 := by rfl
        rw [hp] at h2
        simpa using h2
      obtain ⟨e0, e1, rfl⟩ := List.length_eq_two.mp hlen
      have htypes : [e0, e1].map (fun e => e.entity_type) = [.llm, .tool] := by
        have h2 : (parse_raw_spans c7Batch).map (fun l => l.map (fun e => e.entity_type)) =
            some [.llm, .tool] := by rfl
        rw [hp] at h2
        simpa using h2
      have htool : e1.entity_type = .tool := by
        simp only [List.map_cons, List.map_nil, List.cons.injEq] at htypes
        exact htypes.2.1
      have hnames : [e0, e1].map (fun e => e.entity_name) =
          [.str "unknown", .str "alpha"] := by
        have h2 : (parse_raw_spans c7Batch).map (fun l => l.map (fun e => e.entity_name)) =
            some [.str "unknown", .str "alpha"] := by rfl
        rw [hp] at h2
        simpa using h2
      have hname : e1.entity_name = .str "alpha" := by
        simp only [List.map_cons, List.map_nil, List.cons.injEq] at hnames
        exact hnames.2.1
      refine ⟨[e0, e1], rfl, e1, by simp, htool, ?_⟩
      have h := (C7_tool_definitions [] "x" c7Batch [e0, e1] e1).2.2 hp (by simp) htool
      rw [h, hname]

/- ### Assembly lemmas for claims C1 and C2 -/

/-- A result survives the drop test at line 455 iff it is not an
unsuccessful sentinel. -/
def keepResult (r : MetricResult) : Bool := !(valueIsSentinel r.value && !r.success)

def totalResults (bs : List (String × List MetricResult)) : Nat :=
  (bs.map (fun kv => kv.2.length)).sum

def allResults (bs : List (String × List MetricResult)) : List MetricResult :=
  (bs.map Prod.snd).flatten

theorem appendBucket_keys (bs : List (String × List MetricResult)) (k : String)
    (r : MetricResult) (bs2 : List (String × List MetricResult))
    (h : appendBucket bs k r = .ok bs2) : bs2.map Prod.fst = bs.map Prod.fst := by
  induction bs generalizing bs2 with
  | nil => simp [appendBucket] at h
  | cons hd tl ih =>
    obtain ⟨k0, rs⟩ := hd
    rw [appendBucket] at h
    by_cases hk : k0 = k
    · rw [if_pos hk] at h
      cases h
      simp
    · rw [if_neg hk] at h
      cases happ : appendBucket tl k r with
      | error e => rw [happ] at h; exact absurd h (by simp [Except.map])
      | ok t =>
        rw [happ] at h
        simp only [Except.map, Except.ok.injEq] at h
        subst h
        simp [ih t happ]

theorem appendBucket_total (bs : List (String × List MetricResult)) (k : String)
    (r : MetricResult) (bs2 : List (String × List MetricResult))
    (h : appendBucket bs k r = .ok bs2) : totalResults bs2 = totalResults bs + 1 := by
  induction bs generalizing bs2 with
  | nil => simp [appendBucket] at h
  | cons hd tl ih =>
    obtain ⟨k0, rs⟩ := hd
    rw [appendBucket] at h
    by_cases hk : k0 = k
    · rw [if_pos hk] at h
      cases h
      simp [totalResults]
      omega
    · rw [if_neg hk] at h
      cases happ : appendBucket tl k r with
      | error e => rw [happ] at h; exact absurd h (by simp [Except.map])
      | ok t =>
        rw [happ] at h
        simp only [Except.map, Except.ok.injEq] at h
        subst h
        simp only [totalResults, List.map_cons, List.sum_cons] at ih ⊢
        rw [ih t happ]
        omega

theorem assembleStep_dropped (d : List (String × String))
    (bs : List (String × List MetricResult)) (r : MetricResult)
    (h : keepResult r = false) : assembleStep d bs r = .ok bs := by
  have hc : (valueIsSentinel r.value && !r.success) = true := by
    simpa [keepResult] using h
  simp [assembleStep, hc]
  rfl

theorem assembleStep_keys (d : List (String × String))
    (bs : List (String × List MetricResult)) (r : MetricResult)
    (bs2 : List (String × List MetricResult)) (h : assembleStep d bs r = .ok bs2) :
    bs2.map Prod.fst = bs.map Prod.fst := by
  rw [assembleStep] at h
  by_cases hdrop : (valueIsSentinel r.value && !r.success) = true
  · rw [if_pos hdrop] at h
    cases h
    rfl
  · rw [if_neg hdrop] at h
    by_cases hlev : r.aggregation_level = "span" ∨ r.aggregation_level = "session"
    · rw [if_pos hlev] at h
      cases hsid : r.session_id with
      | nil => rw [hsid] at h; exact absurd h (by simp)
      | cons sid rest =>
        rw [hsid] at h
        exact appendBucket_keys _ _ _ _ h
    · rw [if_neg hlev] at h
      exact appendBucket_keys _ _ _ _ h

theorem assembleStep_total (d : List (String × String))
    (bs : List (String × List MetricResult)) (r : MetricResult)
    (bs2 : List (String × List MetricResult)) (h : assembleStep d bs r = .ok bs2) :
    totalResults bs2 = totalResults bs + (if keepResult r then 1 else 0) := by
  rw [assembleStep] at h
  by_cases hdrop : (valueIsSentinel r.value && !r.success) = true
  · rw [if_pos hdrop] at h
    cases h
    simp [keepResult, hdrop]
  · have hb : (valueIsSentinel r.value && !r.success) = false := by simpa using hdrop
    have hkeep : keepResult r = true := by simp [keepResult, hb]
    rw [if_neg hdrop] at h
    rw [hkeep]
    by_cases hlev : r.aggregation_level = "span" ∨ r.aggregation_level = "session"
    · rw [if_pos hlev] at h
      cases hsid : r.session_id with
      | nil => rw [hsid] at h; exact absurd h (by simp)
      | cons sid rest =>
        rw [hsid] at h
        simpa using appendBucket_total _ _ _ _ h
    · rw [if_neg hlev] at h
      simpa using appendBucket_total _ _ _ _ h

theorem foldlM_assemble_keys (d : List (String × String)) (rs : List MetricResult) :
    ∀ bs0 b, rs.foldlM (assembleStep d) bs0 = .ok b →
      b.map Prod.fst = bs0.map Prod.fst := by
  induction rs with
  | nil =>
    intro bs0 b h
    simp only [List.foldlM_nil] at h
    cases h
    rfl
  | cons r rest ih =>
    intro bs0 b h
    rw [List.foldlM_cons] at h
    cases hstep : assembleStep d bs0 r with
    | error e => rw [hstep] at h; exact Except.noConfusion h
    | ok bs1 =>
      rw [hstep] at h
      exact (ih bs1 b h).trans (assembleStep_keys d bs0 r bs1 hstep)

theorem foldlM_assemble_total (d : List (String × String)) (rs : List MetricResult) :
    ∀ bs0 b, rs.foldlM (assembleStep d) bs0 = .ok b →
      totalResults b = totalResults bs0 + (rs.filter keepResult).length := by
  induction rs with
  | nil =>
    intro bs0 b h
    simp only [List.foldlM_nil] at h
    cases h
    simp
  | cons r rest ih =>
    intro bs0 b h
    rw [List.foldlM_cons] at h
    cases hstep : assembleStep d bs0 r with
    | error e => rw [hstep] at h; exact Except.noConfusion h
    | ok bs1 =>
      rw [hstep] at h
      rw [ih bs1 b h, assembleStep_total d bs0 r bs1 hstep]
      by_cases hk : keepResult r
      · simp [hk, List.filter_cons]
        omega
      · simp [hk, List.filter_cons]

theorem foldlM_assemble_append_dropped (d : List (String × String))
    (rs : List MetricResult) (r : MetricResult) (h : keepResult r = false) :
    ∀ bs0, (rs ++ [r]).foldlM (assembleStep d) bs0 = rs.foldlM (assembleStep d) bs0 := by
  induction rs with
  | nil =>
    intro bs0
    simp only [List.nil_append, List.foldlM_cons, List.foldlM_nil]
    rw [assembleStep_dropped d bs0 r h]
    rfl
  | cons x rest ih =>
    intro bs0
    rw [List.cons_append, List.foldlM_cons, List.foldlM_cons]
    cases hstep : assembleStep d bs0 x with
    | error e => rfl
    | ok bs1 => exact ih bs1

theorem assocInsert_fresh {α : Type} (m : List (String × α)) (k : String) (v : α)
    (h : assocGet m k = none) : assocInsert m k v = m ++ [(k, v)] := by
  induction m with
  | nil => rfl
  | cons hd tl ih =>
    rw [assocGet] at h
    by_cases hk : hd.1 = k
    · rw [if_pos hk] at h; exact absurd h (by simp)
    · rw [if_neg hk] at h
      simp [assocInsert, hk, ih h]

theorem assocGet_append_left {α : Type} (m l : List (String × α)) (k : String) (v : α)
    (h : assocGet m k = some v) : assocGet (m ++ l) k = some v := by
  induction m with
  | nil => simp [assocGet] at h
  | cons hd tl ih =>
    rw [assocGet] at h
    by_cases hk : hd.1 = k
    · rw [if_pos hk] at h
      simp [assocGet, hk, h]
    · rw [if_neg hk] at h
      simp [assocGet, hk, ih h]

theorem assocGet_append_right {α : Type} (m l : List (String × α)) (k : String)
    (h : assocGet m k = none) : assocGet (m ++ l) k = assocGet l k := by
  induction m with
  | nil => rfl
  | cons hd tl ih =>
    rw [assocGet] at h
    by_cases hk : hd.1 = k
    · rw [if_pos hk] at h; exact absurd h (by simp)
    · rw [if_neg hk] at h
      simp [assocGet, hk, ih h]

theorem isSome_assocGet_of_mem_keys {α : Type} (m : List (String × α)) (k : String)
    (h : k ∈ m.map Prod.fst) : (assocGet m k).isSome := by
  induction m with
  | nil => simp at h
  | cons hd tl ih =>
    by_cases hk : hd.1 = k
    · simp [assocGet, hk]
    · simp only [List.map_cons, List.mem_cons] at h
      rcases h with h | h
      · exact absurd h.symm hk
      · simp [assocGet, hk, ih h]

theorem filterMap_ext {α β : Type} (l : List α) (f g : α → Option β)
    (h : ∀ x ∈ l, f x = g x) : l.filterMap f = l.filterMap g := by
  induction l with
  | nil => rfl
  | cons x rest ih =>
    rw [List.filterMap_cons, List.filterMap_cons, h x (List.mem_cons_self x rest),
      ih (fun y hy => h y (List.mem_cons_of_mem x hy))]

/-- Registering a fresh always-failing population metric adds exactly one
task, at the end of the task list. -/
theorem generate_tasks_insert_fresh (reg : MetricRegistry) (ss : SessionSet)
    (B : MetricClass) (hfresh : assocGet reg.metrics B.className = none)
    (hlev : B.aggregation_level = "population") (hparams : B.requiredParams = [])
    (hinit : B.initOk = true) :
    generate_tasks ⟨assocInsert reg.metrics B.className B⟩ ss =
      generate_tasks reg ss ++ [(B, .populationIn ss)] := by
  have hm : (⟨assocInsert reg.metrics B.className B⟩ : MetricRegistry).metrics =
      reg.metrics ++ [(B.className, B)] := assocInsert_fresh _ _ _ hfresh
  have hlist : list_metrics ⟨assocInsert reg.metrics B.className B⟩ =
      list_metrics reg ++ [B.className] := by
    rw [list_metrics, hm]
    simp [list_metrics]
  have hgetOld : ∀ name ∈ list_metrics reg,
      get_metric ⟨assocInsert reg.metrics B.className B⟩ name = get_metric reg name := by
    intro name hname
    obtain ⟨v, hv⟩ := Option.isSome_iff_exists.mp (isSome_assocGet_of_mem_keys _ _ hname)
    rw [get_metric, get_metric, hm, hv]
    exact assocGet_append_left _ _ _ _ hv
  have hgetB : get_metric ⟨assocInsert reg.metrics B.className B⟩ B.className = some B := by
    rw [get_metric, hm, assocGet_append_right _ _ _ hfresh]
    simp [assocGet]
  have hsess : ∀ sess, session_tasks ⟨assocInsert reg.metrics B.className B⟩ sess =
      session_tasks reg sess := by
    intro sess
    rw [session_tasks, session_tasks, hlist]
    congr 1
    · congr 1
      funext span
      rw [List.filterMap_append]
      rw [filterMap_ext (list_metrics reg) _ _ (fun name hname => by rw [hgetOld name hname])]
      rw [show (List.filterMap _ [B.className] : List (MetricClass × MetricInput)) = [] by
        simp only [List.filterMap_cons, List.filterMap_nil, hgetB]
        rw [hlev]
        simp]
      simp
    · rw [List.filterMap_append]
      rw [filterMap_ext (list_metrics reg) _ _ (fun name hname => by rw [hgetOld name hname])]
      rw [show (List.filterMap _ [B.className] : List (MetricClass × MetricInput)) = [] by
        simp only [List.filterMap_cons, List.filterMap_nil, hgetB]
        rw [hparams, hinit, hlev]
        simp [check_session_requirements]]
      simp
  have hpop : population_tasks ⟨assocInsert reg.metrics B.className B⟩ ss =
      population_tasks reg ss ++ [(B, .populationIn ss)] := by
    rw [population_tasks, population_tasks, hlist, List.filterMap_append]
    rw [filterMap_ext (list_metrics reg) _ _ (fun name hname => by rw [hgetOld name hname])]
    congr 1
    simp only [List.filterMap_cons, List.filterMap_nil, hgetB]
    rw [hinit, hlev]
    simp
  rw [generate_tasks, generate_tasks]
  rw [show (ss.sessions.flatMap (session_tasks ⟨assocInsert reg.metrics B.className B⟩)) =
    ss.sessions.flatMap (session_tasks reg) by
      congr 1
      funext sess
      exact hsess sess]
  rw [hpop, List.append_assoc]

/- ### Claim C1: result assembly drop rule -/

def c1ResultA : MetricResult :=
  { metric_name := "MetricA", value := .num 1, aggregation_level := "population",
    success := true }

def c1ResultC : MetricResult :=
  { metric_name := "MetricC", value := .num 1, aggregation_level := "population",
    success := true }

def c1ResultD : MetricResult :=
  { metric_name := "MetricD", value := .num (-1), aggregation_level := "population",
    success := true }

def c1MetricA : MetricClass :=
  { className := "MetricA", aggregation_level := "population",
    computeFn := fun _ => .ok c1ResultA }

def c1MetricB : MetricClass :=
  { className := "MetricB", aggregation_level := "population",
    computeFn := fun _ => .error "B always raises" }

def c1MetricC : MetricClass :=
  { className := "MetricC", aggregation_level := "population",
    computeFn := fun _ => .ok c1ResultC }

def c1MetricD : MetricClass :=
  { className := "MetricD", aggregation_level := "population",
    computeFn := fun _ => .ok c1ResultD }

def c1Registry : MetricRegistry :=
  ⟨[("MetricA", c1MetricA), ("MetricB", c1MetricB), ("MetricC", c1MetricC)]⟩

def c1RegistryD : MetricRegistry := ⟨[("MetricD", c1MetricD)]⟩

def c1SessionSet : SessionSet := ⟨[], []⟩

def c1Buckets : List (String × List MetricResult) :=
  [("span_metrics", []), ("session_metrics", []), ("population_metrics", [c1ResultA, c1ResultC])]

/-- C1, counterexample: the drop test at line 455 is the inverse of the
claim. In the three-metric batch where B always raises, compute_metrics
returns two success results and ZERO results with success=false (the
converted failure of B, an unsuccessful sentinel, is discarded before
bucketing); and a success=true result whose value is the sentinel -1 is
RETAINED, not discarded. -/
theorem C1_counterexample :
    compute_metrics c1Registry c1SessionSet = .ok c1Buckets ∧
    (allResults c1Buckets).countP (fun r => r.success) = 2 ∧
    (allResults c1Buckets).countP (fun r => !r.success) = 0 ∧
    compute_metrics c1RegistryD c1SessionSet =
      .ok [("span_metrics", []), ("session_metrics", []),
        ("population_metrics", [c1ResultD])] := by
  exact ⟨rfl, rfl, rfl, rfl⟩

/-- C1, amended: at result assembly a result is discarded iff it is an
unsuccessful sentinel (success=false with value -1 or empty dict), and
success=true results are always retained, sentinel-valued ones included;
the bucketed result count equals the count of retained results.
Consequently the three-metric batch with B always raising yields exactly
two success results and no failed result. -/
theorem C1_result_assembly (results : List MetricResult)
    (appNames : List (String × String)) (b : List (String × List MetricResult)) :
    (assemble_results results appNames = .ok b →
      totalResults b = (results.filter keepResult).length) ∧
    compute_metrics c1Registry c1SessionSet = .ok c1Buckets := by
  constructor
  · intro h
    have ht := foldlM_assemble_total appNames results emptyBuckets b h
    simpa [totalResults, emptyBuckets] using ht
  · rfl

/-- C1 witness: assembling one success result and one converted failure
buckets exactly the retained one. -/
theorem C1_witness :
    totalResults [("span_metrics", []), ("session_metrics", []),
      ("population_metrics", [c1ResultA])] =
    ([c1ResultA,
      failure_result c1MetricB (.populationIn c1SessionSet) "B always raises"].filter
        keepResult).length := by
  exact (C1_result_assembly
    [c1ResultA, failure_result c1MetricB (.populationIn c1SessionSet) "B always raises"]
    [] [("span_metrics", []), ("session_metrics", []),
      ("population_metrics", [c1ResultA])]).1 (by rfl)

/- ### Claim C2: failure conversion and isolation -/

def c2SuccessResult : MetricResult :=
  { metric_name := "MetricSess", value := .num 1, aggregation_level := "session",
    success := true, session_id := [] }

def c2BadMetric : MetricClass :=
  { className := "MetricSess", aggregation_level := "session",
    computeFn := fun _ => .ok c2SuccessResult }

def c2Registry : MetricRegistry := ⟨[("MetricSess", c2BadMetric)]⟩

def c2Session : SessionEnt := { session_id := "s1", spans := [] }

def c2SS : SessionSet := ⟨[c2Session], [("s1", "app1")]⟩

/-- C2, counterexample: compute_metrics can raise outside top-level
misconfiguration and absent input — a session-level metric returning a
SUCCESS result with an empty session_id list makes the app_name
back-fill at line 459 index session_id[0] and raise IndexError, even
though no metric raised. -/
theorem C2_counterexample :
    compute_metrics c2Registry c2SS = .error "IndexError: list index out of range" ∧
    (∀ d, c2BadMetric.computeFn d = .ok c2SuccessResult) ∧
    c2SuccessResult.success = true := by
  exact ⟨rfl, fun d => rfl, rfl⟩

def c2GoodResult : MetricResult :=
  { metric_name := "MetricGood", value := .num 1, aggregation_level := "population",
    success := true }

def c2GoodMetric : MetricClass :=
  { className := "MetricGood", aggregation_level := "population",
    computeFn := fun _ => .ok c2GoodResult }

def c2RegGood : MetricRegistry := ⟨[("MetricGood", c2GoodMetric)]⟩

def c2SSEmpty : SessionSet := ⟨[], []⟩

/-- C2, amended: any exception in a metric compute path becomes a failure
MetricResult carrying the exception text, the metric name and the
best-effort app_name (own attribute, else first nested span); a
non-raising invocation returns a mapping with exactly the three bucket
keys; and a failure in one metric never affects siblings or the returned
value: adding an always-raising metric to the registry leaves the result
exactly unchanged. The engine can however raise at assembly for a
span- or session-level success result with an empty session_id list. -/
theorem C2_failure_isolation (m B : MetricClass) (data : MetricInput) (e : String)
    (reg : MetricRegistry) (ss : SessionSet) (b : List (String × List MetricResult))
    (s : SpanEnt) (sess : SessionEnt) :
    (m.cacheFn (dataSessionId data) = none → m.computeFn data = .error e →
      safe_compute m data = failure_result m data e ∧
      (failure_result m data e).error_message = some e ∧
      (failure_result m data e).metric_name = m.className ∧
      (failure_result m data e).success = false) ∧
    (appNameForError (.spanIn s) = s.app_name) ∧
    (∀ sp rest, sess.spans = sp :: rest →
      appNameForError (.sessionIn sess) = sp.app_name) ∧
    (compute_metrics reg ss = .ok b →
      b.map Prod.fst = ["span_metrics", "session_metrics", "population_metrics"]) ∧
    (assocGet reg.metrics B.className = none → B.aggregation_level = "population" →
      B.requiredParams = [] → B.initOk = true → (∀ d2, B.computeFn d2 = .error e) →
      compute_metrics reg ss = .ok b →
      compute_metrics ⟨assocInsert reg.metrics B.className B⟩ ss = .ok b) := by
  refine ⟨?_, rfl, ?_, ?_, ?_⟩
  · intro hcache hcomp
    have hcached : (if m.aggregation_level = "span" ∨ m.aggregation_level = "session"
        then m.cacheFn (dataSessionId data) else none) = none := by
      split
      · exact hcache
      · rfl
    refine ⟨?_, rfl, rfl, rfl⟩
    rw [safe_compute]
    rw [hcached, hcomp]
  · intro sp rest h
    simp [appNameForError, h]
  · intro hb
    rw [compute_metrics] at hb
    split at hb
    · cases hb
      rfl
    · exact (foldlM_assemble_keys _ _ emptyBuckets b hb).trans rfl
  · intro hfresh hlev hparams hinit hBfail hb
    have htasks := generate_tasks_insert_fresh reg ss B hfresh hlev hparams hinit
    have hsafeB : safe_compute B (.populationIn ss) =
        failure_result B (.populationIn ss) e := by
      rw [safe_compute, hlev]
      simp only [String.reduceEq, or_self, if_false]
      rw [hBfail]
    have hkeep : keepResult (failure_result B (.populationIn ss) e) = false := by
      simp [keepResult, failure_result, valueIsSentinel]
    rw [compute_metrics] at hb ⊢
    rw [htasks]
    have hne : (generate_tasks reg ss ++ [(B, MetricInput.populationIn ss)]).isEmpty = false := by
      cases generate_tasks reg ss <;> rfl
    rw [if_neg (by simp [hne])]
    rw [List.map_append]
    simp only [List.map_cons, List.map_nil]
    rw [hsafeB]
    rw [assemble_results, foldlM_assemble_append_dropped _ _ _ hkeep]
    split at hb
    · cases hb
      rename_i hempty
      rw [List.isEmpty_iff] at hempty
      rw [hempty]
      rfl
    · exact hb

/-- C2 witness: a concrete failing population metric is converted with
its exception text, and registering it next to a healthy metric leaves
the healthy result buckets unchanged. -/
theorem C2_witness :
    safe_compute c1MetricB (.populationIn c2SSEmpty) =
      failure_result c1MetricB (.populationIn c2SSEmpty) "B always raises" ∧
    compute_metrics ⟨assocInsert c2RegGood.metrics "MetricB" c1MetricB⟩ c2SSEmpty =
      .ok [("span_metrics", []), ("session_metrics", []),
        ("population_metrics", [c2GoodResult])] := by
  constructor
  · exact ((C2_failure_isolation c1MetricB c1MetricB (.populationIn c2SSEmpty)
      "B always raises" c2RegGood c2SSEmpty [] c4ToolSpan c2Session).1 rfl rfl).1
  · exact (C2_failure_isolation c1MetricB c1MetricB (.populationIn c2SSEmpty)
      "B always raises" c2RegGood c2SSEmpty
      [("span_metrics", []), ("session_metrics", []),
        ("population_metrics", [c2GoodResult])] c4ToolSpan c2Session).2.2.2.2
      rfl rfl rfl rfl (fun d2 => rfl) (by rfl)

end TelemetryHub
